import Mathlib

/-!
Verification of the `clai` dynamic tool-mounting runtime.

This file gives a shallow embedding of the core of the repository:
spec discovery (`tool_specs.py`), validation and registration
(`tool_mounts/registry.py`), the four mount adapters (`cli.py`,
`python.py`, `markdown.py`, `prompt.py`) and the nested-call dispatcher
(`tool_registration.py`), together with theorems settling the frozen
claims about that code.

Modelling conventions:
* YAML/JSON-like values are the inductive `JVal`; Python dicts are
  association lists (`Dict`) with first-match lookup, preserving
  insertion order like Python dicts.
* Python truthiness, `str()`, `.strip()`, `.rstrip()` and `.lower()` are
  modelled by `truthy`, `pyStr`, `pyStrip`, `pyRStrip`, `pyLower`.
  `pyStr` on lists/dicts is a simplified repr (nested string escaping is
  not modelled); the claims never depend on that corner.
* Filesystem access, YAML parsing and process spawning are oracles
  (`FileSys`, a `String → Except String JVal` parser, an `exec`
  function), since they are external to the repository's code.
* Log lines are recorded as structured `LogEvent`s; `renderEvent` maps
  each event to the exact f-string the source writes.
* A raised-and-uncaught Python exception is the `.error` case of
  `Except String`.
-/

namespace Clai

/-- JSON/YAML-like values (string keys only; integer numerics). -/
inductive JVal where
  | null : JVal
  | bool : Bool → JVal
  | num : Int → JVal
  | str : String → JVal
  | list : List JVal → JVal
  | obj : List (String × JVal) → JVal
deriving Inhabited

/-- A Python dict with string keys, as an insertion-ordered association list. -/
abbrev Dict := List (String × JVal)

/-- First-match lookup, modelling `d.get(k)` (None for a missing key). -/
def dget : Dict → String → Option JVal
  | [], _ => none
  | (k, v) :: rest, key => if k = key then some v else dget rest key

/-- Key update, modelling `d[k] = v`: replace the first binding or append. -/
def dset : Dict → String → JVal → Dict
  | [], key, v => [(key, v)]
  | (k, w) :: rest, key, v =>
    if k = key then (k, v) :: rest else (k, w) :: dset rest key v

/-- Python truthiness on `JVal`. -/
def truthy : JVal → Bool
  | .null => false
  | .bool b => b
  | .num n => n != 0
  | .str s => s ≠ ""
  | .list xs => !xs.isEmpty
  | .obj fs => !fs.isEmpty

/-- Model of Python `x or y` where `x` came from `d.get(k)` (absent is `None`). -/
def pyOr (v : Option JVal) (dflt : JVal) : JVal :=
  match v with
  | none => dflt
  | some x => if truthy x then x else dflt

/-- Simplified model of Python `repr()` for nested values (string escaping
inside the repr of containers is not modelled). -/
def pyRepr : JVal → String
  | .null => "None"
  | .bool true => "True"
  | .bool false => "False"
  | .num n => toString n
  | .str s => "'" ++ s ++ "'"
  | .list xs =>
      "[" ++ String.intercalate ", " (xs.attach.map fun x => pyRepr x.1) ++ "]"
  | .obj fs =>
      "\x7b" ++
        String.intercalate ", "
          (fs.attach.map fun kv => "'" ++ kv.1.1 ++ "': " ++ pyRepr kv.1.2) ++ "\x7d"
termination_by v => sizeOf v
decreasing_by
  · have h := List.sizeOf_lt_of_mem x.2
    simp only [JVal.list.sizeOf_spec]
    omega
  · have h := List.sizeOf_lt_of_mem kv.2
    have h2 : sizeOf kv.1.2 < sizeOf kv.1 := by
      obtain ⟨⟨a, b⟩, hm⟩ := kv
      simp only [Prod.mk.sizeOf_spec]
      omega
    simp only [JVal.obj.sizeOf_spec]
    omega

/-- Model of Python `str()` on the value universe (`str` of a container is
its repr). -/
def pyStr : JVal → String
  | .null => "None"
  | .bool true => "True"
  | .bool false => "False"
  | .num n => toString n
  | .str s => s
  | .list xs => pyRepr (.list xs)
  | .obj fs => pyRepr (.obj fs)

/-- The ASCII whitespace characters stripped by Python `str.strip()`. -/
def pySpace (c : Char) : Bool :=
  c = ' ' || c = '\t' || c = '\n' || c = '\r' || c = Char.ofNat 11 || c = Char.ofNat 12

/-- List-level two-sided whitespace strip. -/
def pyStripL (l : List Char) : List Char :=
  ((l.dropWhile pySpace).reverse.dropWhile pySpace).reverse

/-- Model of Python `str.strip()` (ASCII whitespace). -/
def pyStrip (s : String) : String :=
  String.mk (pyStripL s.data)

/-- Model of Python `str.rstrip()` (ASCII whitespace). -/
def pyRStrip (s : String) : String :=
  String.mk (s.data.reverse.dropWhile pySpace).reverse

/-- Model of Python `str.lower()` (ASCII case folding). -/
def pyLower (s : String) : String :=
  String.mk (s.data.map Char.toLower)

/-- The apostrophe character, used in literal log/repr text. -/
def apos : String := (Char.ofNat 39).toString

/-! ### Model of `json.dumps(..., ensure_ascii=True)` -/

/-- One lowercase hexadecimal digit. -/
def hexDigit (n : Nat) : Char :=
  if n < 10 then Char.ofNat (48 + n) else Char.ofNat (87 + n)

/-- JSON escaping of one character, as `json.dumps` with `ensure_ascii=True`. -/
def jsonEscapeChar (c : Char) : List Char :=
  if c = Char.ofNat 34 then [Char.ofNat 92, Char.ofNat 34]
  else if c = Char.ofNat 92 then [Char.ofNat 92, Char.ofNat 92]
  else if c = Char.ofNat 10 then [Char.ofNat 92, 'n']
  else if c = Char.ofNat 9 then [Char.ofNat 92, 't']
  else if c = Char.ofNat 13 then [Char.ofNat 92, 'r']
  else if c = Char.ofNat 8 then [Char.ofNat 92, 'b']
  else if c = Char.ofNat 12 then [Char.ofNat 92, 'f']
  else if c.toNat < 32 || c.toNat > 126 then
    [Char.ofNat 92, 'u', hexDigit (c.toNat / 4096 % 16), hexDigit (c.toNat / 256 % 16),
      hexDigit (c.toNat / 16 % 16), hexDigit (c.toNat % 16)]
  else [c]

/-- A JSON string literal for `s`. -/
def jsonQuote (s : String) : String :=
  "\"" ++ String.mk (s.data.map jsonEscapeChar).flatten ++ "\""

/-- Model of `json.dumps(v, ensure_ascii=True)` (default separators). -/
def jdump : JVal → String
  | .null => "null"
  | .bool true => "true"
  | .bool false => "false"
  | .num n => toString n
  | .str s => jsonQuote s
  | .list xs =>
      "[" ++ String.intercalate ", " (xs.attach.map fun x => jdump x.1) ++ "]"
  | .obj fs =>
      "\x7b" ++
        String.intercalate ", "
          (fs.attach.map fun kv => jsonQuote kv.1.1 ++ ": " ++ jdump kv.1.2) ++ "\x7d"
termination_by v => sizeOf v
decreasing_by
  · have h := List.sizeOf_lt_of_mem x.2
    simp only [JVal.list.sizeOf_spec]
    omega
  · have h := List.sizeOf_lt_of_mem kv.2
    have h2 : sizeOf kv.1.2 < sizeOf kv.1 := by
      obtain ⟨⟨a, b⟩, hm⟩ := kv
      simp only [Prod.mk.sizeOf_spec]
      omega
    simp only [JVal.obj.sizeOf_spec]
    omega

/-! ### Model of `shlex.split` (POSIX mode) -/

/-- The single-quote character. -/
def squoteC : Char := Char.ofNat 39

/-- The double-quote character. -/
def dquoteC : Char := Char.ofNat 34

/-- The backslash character. -/
def backslashC : Char := Char.ofNat 92

/-- Whitespace separating shell words. -/
def shlexWS (c : Char) : Bool :=
  c = ' ' || c = Char.ofNat 9 || c = Char.ofNat 10 || c = Char.ofNat 13

/-- Lexer modes for the `shlex.split` model. -/
inductive ShMode where
  | out : ShMode
  | word : ShMode
  | squote : ShMode
  | dquote : ShMode
  | escOut : ShMode
  | escDq : ShMode
deriving DecidableEq

/-- Character-level worker for the `shlex.split` model; `cur` is the current
word accumulated in reverse. -/
def shlexGo : List Char → ShMode → List Char → List String
  | [], m, cur => if m = .out then [] else [String.mk cur.reverse]
  | c :: rest, .out, cur =>
      if shlexWS c then shlexGo rest .out []
      else if c = squoteC then shlexGo rest .squote cur
      else if c = dquoteC then shlexGo rest .dquote cur
      else if c = backslashC then shlexGo rest .escOut cur
      else shlexGo rest .word (c :: cur)
  | c :: rest, .word, cur =>
      if shlexWS c then String.mk cur.reverse :: shlexGo rest .out []
      else if c = squoteC then shlexGo rest .squote cur
      else if c = dquoteC then shlexGo rest .dquote cur
      else if c = backslashC then shlexGo rest .escOut cur
      else shlexGo rest .word (c :: cur)
  | c :: rest, .squote, cur =>
      if c = squoteC then shlexGo rest .word cur
      else shlexGo rest .squote (c :: cur)
  | c :: rest, .dquote, cur =>
      if c = dquoteC then shlexGo rest .word cur
      else if c = backslashC then shlexGo rest .escDq cur
      else shlexGo rest .dquote (c :: cur)
  | c :: rest, .escOut, cur => shlexGo rest .word (c :: cur)
  | c :: rest, .escDq, cur =>
      if c = dquoteC || c = backslashC then shlexGo rest .dquote (c :: cur)
      else shlexGo rest .dquote (c :: backslashC :: cur)

/-- Model of Python `shlex.split(s)` in POSIX mode. -/
def shlexSplit (s : String) : List String :=
  shlexGo s.data .out []

/-! ### Paths and the filesystem oracle

Paths are resolved absolute path strings; `pathParts` models
`pathlib.Path.parts` (up to the representation of the root segment, which
is never the segment the code inspects). -/

/-- Split a character list at every occurrence of `sep` (model of
`str.split`). -/
def splitCharsOn (sep : Char) : List Char → List (List Char)
  | [] => [[]]
  | c :: rest =>
    let r := splitCharsOn sep rest
    if c = sep then [] :: r
    else
      match r with
      | h :: t => (c :: h) :: t
      | [] => [[c]]

/-- Model of `Path.parts` for a path string. -/
def pathParts (p : String) : List String :=
  (splitCharsOn '/' p.data).map String.mk

/-- The final path segment, modelling `Path.name` / glob filename matching. -/
def fileNameOf (p : String) : String :=
  (pathParts p).getLastD ""

/-- The parent directory string, modelling `Path.parent`. -/
def pathParent (p : String) : String :=
  String.intercalate "/" (pathParts p).dropLast

/-- Model of `parent / child` for an already-resolved parent. -/
def pathJoin (parent child : String) : String :=
  match child.data with
  | c :: _ => if c = '/' then child else parent ++ "/" ++ child
  | [] => parent ++ "/" ++ child

/-- Lexicographic comparison of character lists by code point, modelling
Python string ordering. -/
def charsLe : List Char → List Char → Bool
  | [], _ => true
  | _ :: _, [] => false
  | a :: as, b :: bs =>
    if a.toNat < b.toNat then true
    else if b.toNat < a.toNat then false
    else charsLe as bs

/-- Lexicographic string order (Boolean). -/
def strLeB (a b : String) : Bool :=
  charsLe a.data b.data

/-- Lexicographic string order, as the relation paths are sorted by. -/
def pathLe (a b : String) : Prop :=
  strLeB a b = true

instance : DecidableRel pathLe := fun a b =>
  inferInstanceAs (Decidable (strLeB a b = true))

/-- Outcome of `Path.read_text`: content, or the message of the raised
`OSError`. -/
inductive ReadResult where
  | ok : String → ReadResult
  | err : String → ReadResult

/-- Filesystem oracle: whether the tools root exists, the resolved paths of
all files beneath it, plus existence/read oracles for arbitrary paths. -/
structure FileSys where
  toolsDirExists : Bool
  files : List String
  read : String → ReadResult
  fileExists : String → Bool

/-! ### Structured log events

Each constructor corresponds to exactly one `log(...)` call site in the
source; `renderEvent` reproduces the exact message written there. -/

/-- One diagnostic log line, in structured form. -/
inductive LogEvent where
  | yamlUnavailable : String → String → LogEvent
  | parseFailed : String → String → LogEvent
  | notObject : String → LogEvent
  | invalidMissingName : String → LogEvent
  | invalidMissingType : String → String → LogEvent
  | unsupportedType : String → String → LogEvent
  | dupPublished : String → String → String → LogEvent
  | dupMounted : String → String → LogEvent
  | cliMissingCommand : String → LogEvent
  | promptMissingSource : String → LogEvent
  | markdownMissingSource : String → LogEvent
  | markdownSourceNotFound : String → String → LogEvent
  | pythonMissingSource : String → LogEvent
  | pythonSourceNotFound : String → String → LogEvent
  | cliProcessFailed : String → Int → LogEvent
deriving DecidableEq

/-- The exact log line each event renders to in the source. -/
def renderEvent : LogEvent → String
  | .yamlUnavailable p exc => "[mcp-server] yaml parser unavailable for " ++ p ++ ": " ++ exc
  | .parseFailed p exc => "[mcp-server] tool spec parse failed: " ++ p ++ " (" ++ exc ++ ")"
  | .notObject p =>
      "[mcp-server] tool spec parse failed: " ++ p ++ " (top-level YAML must be an object)"
  | .invalidMissingName p => "[mcp-server] tool invalid (missing_name): " ++ p
  | .invalidMissingType name p =>
      "[mcp-server] tool " ++ name ++ " invalid (missing_type): " ++ p
  | .unsupportedType name tt =>
      "[mcp-server] tool " ++ name ++ " skipped: I don" ++ apos ++
        "t have a mount for that tool type (" ++ tt ++ ")"
  | .dupPublished name p existing =>
      "[mcp-server] tool " ++ name ++ " skipped: duplicate published name at " ++ p ++
        " (already defined at " ++ existing ++ ")"
  | .dupMounted name p =>
      "[mcp-server] tool " ++ name ++ " skipped: duplicate mounted name at " ++ p
  | .cliMissingCommand name => "[mcp-server] tool " ++ name ++ " missing command for cli"
  | .promptMissingSource name => "[mcp-server] tool " ++ name ++ " missing source for prompt"
  | .markdownMissingSource name =>
      "[mcp-server] tool " ++ name ++ " missing source for markdown"
  | .markdownSourceNotFound name sp =>
      "[mcp-server] tool " ++ name ++ " markdown source not found: " ++ sp
  | .pythonMissingSource name => "[mcp-server] tool " ++ name ++ " missing source for python"
  | .pythonSourceNotFound name sp =>
      "[mcp-server] tool " ++ name ++ " python source not found: " ++ sp
  | .cliProcessFailed cmd0 code =>
      "[healthcheck] process failed: cmd=" ++ cmd0 ++ " exit=" ++ toString code

/-! ### Spec loader (`tool_specs.py`) -/

/-- The `yaml.safe_load` oracle: raw text to a parsed value or the message of
the raised parse exception. -/
abbrev YamlParse := String → Except String JVal

/-- Embedding of `parse_tool_yaml`.  `yamlImport` models `import yaml`
(`.error` is an import failure).  The overall `.error` case is an uncaught
exception from `read_text` on an unreadable file, which the source does not
catch. -/
def parse_tool_yaml (yamlImport : Except String YamlParse) (fs : FileSys)
    (tool_path : String) : Except String (Option Dict × List LogEvent) :=
  match yamlImport with
  | .error exc => .ok (none, [.yamlUnavailable tool_path exc])
  | .ok parseYaml =>
    match fs.read tool_path with
    | .err msg => .error msg
    | .ok text =>
      if pyStrip text = "" then .ok (none, [])
      else
        match parseYaml text with
        | .error exc => .ok (none, [.parseFailed tool_path exc])
        | .ok (.obj fields) => .ok (some fields, [])
        | .ok _ => .ok (none, [.notObject tool_path])

/-- Embedding of `iter_tool_spec_paths`: glob matches on the two accepted
filenames, set-deduplication, lexicographic sort on the resolved path, and
the optional `templates` exclusion. -/
def iter_tool_spec_paths (fs : FileSys) (include_templates : Bool) : List String :=
  if !fs.toolsDirExists then []
  else
    let tool_paths := fs.files.filter (fun p => fileNameOf p = "TOOL.yaml") ++
      fs.files.filter (fun p => fileNameOf p = "TOOL.yml")
    let resolved_paths := List.insertionSort pathLe tool_paths.dedup
    if include_templates then resolved_paths
    else resolved_paths.filter (fun p => !(pathParts p).contains "templates")

/-- Worker for `iter_tool_specs`: parse each discovered path in order,
skipping files whose parse produced `None` or a falsy (empty) dict. -/
def iter_specs_go (yamlImport : Except String YamlParse) (fs : FileSys) :
    List String → Except String (List (String × Dict) × List LogEvent)
  | [] => .ok ([], [])
  | p :: rest => do
      let (spec?, evs) ← parse_tool_yaml yamlImport fs p
      let (pairs, evs2) ← iter_specs_go yamlImport fs rest
      match spec? with
      | some d =>
          if d.isEmpty then .ok (pairs, evs ++ evs2)
          else .ok ((p, d) :: pairs, evs ++ evs2)
      | none => .ok (pairs, evs ++ evs2)

/-- Embedding of `iter_tool_specs`. -/
def iter_tool_specs (yamlImport : Except String YamlParse) (fs : FileSys)
    (include_templates : Bool) :
    Except String (List (String × Dict) × List LogEvent) :=
  iter_specs_go yamlImport fs (iter_tool_spec_paths fs include_templates)

/-! ### Spec validator and registry constants (`registry.py`) -/

/-- The four adapter variants behind `TOOL_TYPE_MOUNTS`. -/
inductive MountKind where
  | cli : MountKind
  | python : MountKind
  | markdown : MountKind
  | prompt : MountKind
deriving DecidableEq

/-- The `TOOL_TYPE_MOUNTS` lookup table (key set and adapter dispatch). -/
def TOOL_TYPE_MOUNTS : List (String × MountKind) :=
  [("cli", .cli), ("python", .python), ("markdown", .markdown), ("prompt", .prompt)]

/-- Rejection code for a missing/empty name. -/
def TOOL_SPEC_ERROR_MISSING_NAME : String := "missing_name"

/-- Rejection code for a missing/empty type. -/
def TOOL_SPEC_ERROR_MISSING_TYPE : String := "missing_type"

/-- Rejection code for a type outside the mount table. -/
def TOOL_SPEC_ERROR_UNSUPPORTED_TYPE : String := "unsupported_type"

/-- The `~` tool-invocation tag. -/
def TOOL_INVOCATION_TAG : String := "~"

/-- Embedding of `validate_tool_spec`: normalize one parsed spec, returning
the canonical descriptor or an error code. -/
def validate_tool_spec (raw_spec : Dict) : Option Dict × Option String :=
  let spec : Dict := raw_spec
  let name := pyStrip (pyStr (pyOr (dget spec "name") (.str "")))
  if name = "" then (none, some TOOL_SPEC_ERROR_MISSING_NAME)
  else
    let tool_type := pyLower (pyStrip (pyStr (pyOr (dget spec "type") (.str ""))))
    if tool_type = "" then (none, some TOOL_SPEC_ERROR_MISSING_TYPE)
    else if (TOOL_TYPE_MOUNTS.lookup tool_type).isNone then
      (none, some TOOL_SPEC_ERROR_UNSUPPORTED_TYPE)
    else
      let spec := dset spec "name" (.str name)
      let spec := dset spec "type" (.str tool_type)
      let spec := dset spec "description"
        (.str (pyStr (pyOr (dget spec "description") (.str ""))))
      (some spec, none)

/-- Heap cell update: `store[i][k] = v`. -/
def heapSet (store : List Dict) (i : Nat) (k : String) (v : JVal) : List Dict :=
  store.set i (dset (store.getD i []) k v)

/-- Heap-level embedding of `validate_tool_spec`, making Python reference
semantics explicit: dict objects live in a store of cells, the argument is a
reference, `dict(raw_spec)` allocates a fresh cell, and the three item
assignments mutate only that fresh cell.  Returns the store after the call,
the reference of the returned descriptor (if any) and the error code. -/
def validate_tool_spec_heap (store : List Dict) (raw_ref : Nat) :
    List Dict × Option Nat × Option String :=
  let spec_ref := store.length
  let store1 := store ++ [store.getD raw_ref []]
  let name := pyStrip (pyStr (pyOr (dget (store1.getD spec_ref []) "name") (.str "")))
  if name = "" then (store1, none, some TOOL_SPEC_ERROR_MISSING_NAME)
  else
    let tool_type :=
      pyLower (pyStrip (pyStr (pyOr (dget (store1.getD spec_ref []) "type") (.str ""))))
    if tool_type = "" then (store1, none, some TOOL_SPEC_ERROR_MISSING_TYPE)
    else if (TOOL_TYPE_MOUNTS.lookup tool_type).isNone then
      (store1, none, some TOOL_SPEC_ERROR_UNSUPPORTED_TYPE)
    else
      let store2 := heapSet store1 spec_ref "name" (.str name)
      let store3 := heapSet store2 spec_ref "type" (.str tool_type)
      let store4 := heapSet store3 spec_ref "description"
        (.str (pyStr (pyOr (dget (store3.getD spec_ref []) "description") (.str ""))))
      (store4, some spec_ref, none)

/-- Embedding of `tool_published_name`. -/
def tool_published_name (spec : Dict) : String :=
  if pyLower (pyStrip (pyStr (pyOr (dget spec "type") (.str "")))) = "cli" then
    let mcp_name := pyStrip (pyStr (pyOr (dget spec "mcp_name") (.str "")))
    if mcp_name ≠ "" then mcp_name
    else pyStrip (pyStr (pyOr (dget spec "name") (.str "")))
  else pyStrip (pyStr (pyOr (dget spec "name") (.str "")))

/-! ### Mounted tools

The registry pass never invokes a runner, so at this level a runner is
represented by the data its closure captures (`RunnerRep`); the call-time
behavior of the cli and static-text runners is embedded separately below. -/

/-- Defunctionalized runner closure: which adapter built it and what it
captured at mount time. -/
inductive RunnerRep where
  | cli : String → RunnerRep
  | promptText : String → String → RunnerRep
  | python : String → RunnerRep
deriving DecidableEq

/-- The uniform mounted-tool record the adapters return. -/
structure MountedTool where
  name : String
  description : String
  inputs_desc : JVal
  outputs_desc : JVal
  meta : Option Dict
  runner : RunnerRep
  source : JVal
  source_path : String

/-! ### Static-text adapters (`prompt.py`, `markdown.py`) -/

/-- Fixed response hint prefixed to every static-text result. -/
def PROMPT_TOOL_RESPONSE_HINT : String :=
  "Tool behavior: this tool does not execute the task. It only returns instructions for you (the calling LM) to follow using other tools."

/-- Fixed metadata hint attached to static-text mounts. -/
def PROMPT_TOOL_META_HINT : String :=
  "Prompt/markdown tool: treat `text` as execution instructions, not a final answer."

/-- Embedding of the `_tool_runner` closure of `build_text_prompt_mount`. -/
def prompt_tool_runner (prompt_text : String) (tool_kind : String)
    (input : Option Dict) : JVal :=
  let payload : Dict :=
    match input with
    | none => []
    | some d => if d.isEmpty then [] else d
  let prompt :=
    PROMPT_TOOL_RESPONSE_HINT ++ "\n\n" ++ prompt_text ++ "\n\n---\ninput: " ++
      jdump (.obj payload)
  .obj [("text", .str prompt), ("input", .obj payload), ("type", .str tool_kind)]

/-- Embedding of `build_text_prompt_mount`. -/
def build_text_prompt_mount (tool : Dict) (prompt_text : String)
    (source_path : String) (tool_kind : String) : MountedTool :=
  { name := pyStrip (pyStr (pyOr (dget tool "name") (.str "")))
    description := pyStr (pyOr (dget tool "description") (.str ""))
    inputs_desc := (dget tool "inputs").getD .null
    outputs_desc := (dget tool "outputs").getD .null
    meta := some [("prompt_tool_hint", .str PROMPT_TOOL_META_HINT)]
    runner := .promptText prompt_text tool_kind
    source := (dget tool "source").getD .null
    source_path := source_path }

/-- Embedding of `build_prompt_mount`. -/
def build_prompt_mount (tool : Dict) (tool_path : String) :
    Option MountedTool × List LogEvent :=
  let tool_name := pyStrip (pyStr (pyOr (dget tool "name") (.str "")))
  match dget tool "source" with
  | some (.str s) =>
      if pyStrip s = "" then (none, [.promptMissingSource tool_name])
      else (some (build_text_prompt_mount tool s tool_path "prompt"), [])
  | _ => (none, [.promptMissingSource tool_name])

/-- Embedding of `build_markdown_mount`; reading the backing file is not
wrapped in a handler in the source, so a read failure is an uncaught
exception (`.error`). -/
def build_markdown_mount (fs : FileSys) (tool : Dict) (tool_path : String) :
    Except String (Option MountedTool × List LogEvent) :=
  let tool_name := pyStrip (pyStr (pyOr (dget tool "name") (.str "")))
  match dget tool "source" with
  | some (.str s) =>
      if pyStrip s = "" then .ok (none, [.markdownMissingSource tool_name])
      else
        let source_path := pathJoin (pathParent tool_path) s
        if !fs.fileExists source_path then
          .ok (none, [.markdownSourceNotFound tool_name source_path])
        else
          match fs.read source_path with
          | .err msg => .error msg
          | .ok text =>
              .ok (some (build_text_prompt_mount tool text source_path "markdown"), [])
  | _ => .ok (none, [.markdownMissingSource tool_name])

/-- Embedding of `build_python_mount` (mount-time checks only; the module is
loaded at call time, not at mount time). -/
def build_python_mount (fs : FileSys) (tool : Dict) (tool_path : String) :
    Option MountedTool × List LogEvent :=
  let tool_name := pyStrip (pyStr (pyOr (dget tool "name") (.str "")))
  match dget tool "source" with
  | some (.str s) =>
      if pyStrip s = "" then (none, [.pythonMissingSource tool_name])
      else
        let source_path := pathJoin (pathParent tool_path) s
        if !fs.fileExists source_path then
          (none, [.pythonSourceNotFound tool_name source_path])
        else
          (some { name := tool_name
                  description := pyStr (pyOr (dget tool "description") (.str ""))
                  inputs_desc := (dget tool "inputs").getD .null
                  outputs_desc := (dget tool "outputs").getD .null
                  meta := none
                  runner := .python source_path
                  source := .str s
                  source_path := source_path }, [])
  | _ => (none, [.pythonMissingSource tool_name])

/-! ### Command adapter (`cli.py`) -/

/-- Fixed pre-prompt metadata attached to cli mounts. -/
def CLI_TOOL_PRE_PROMPT : String :=
  "This is an MCP tool for running CLI commands. Use the man pages tool and tldr tool to find an accurate command that fits the prompt."

/-- Default `inputs` documentation block of a cli mount. -/
def cliDefaultInputsDesc : JVal :=
  .obj [("args", .str "Optional list of CLI arguments."),
        ("stdin", .str "Optional stdin string passed to the process."),
        ("cwd", .str "Optional working directory.")]

/-- Default `outputs` documentation block of a cli mount. -/
def cliDefaultOutputsDesc : JVal :=
  .obj [("stdout", .str "Process stdout text."),
        ("stderr", .str "Process stderr text."),
        ("exit_code", .str "Process exit code.")]

/-- Embedding of `build_cli_mount`. -/
def build_cli_mount (tool : Dict) (tool_path : String) :
    Option MountedTool × List LogEvent :=
  let tool_name := pyStrip (pyStr (pyOr (dget tool "name") (.str "")))
  let command := pyStrip (pyStr (pyOr (dget tool "command") (.str "")))
  if command = "" then (none, [.cliMissingCommand tool_name])
  else
    let mcp_name := pyStrip (pyStr (pyOr (dget tool "mcp_name")
      (.str (if tool_name ≠ "" then tool_name else "cli." ++ command))))
    let description := pyStr (pyOr (dget tool "description")
      (.str ("Run `" ++ command ++ "` from the Nix CLI environment.")))
    (some { name := mcp_name
            description := description
            inputs_desc := pyOr (dget tool "inputs") cliDefaultInputsDesc
            outputs_desc := pyOr (dget tool "outputs") cliDefaultOutputsDesc
            meta := some [("tool_pre_prompt", .str CLI_TOOL_PRE_PROMPT)]
            runner := .cli command
            source := .obj [("command", .str command)]
            source_path := tool_path }, [])

/-- Result of a completed child process (`subprocess.run` with
`check=False`, `capture_output=True`, `text=True`); the oracle models a
successful spawn. -/
structure ProcResult where
  stdout : String
  stderr : String
  returncode : Int

/-- Process-spawn oracle: argument vector, stdin, cwd. -/
abbrev ExecOracle := List String → Option String → Option String → ProcResult

/-- The validated call-time input shape of the cli runner. -/
structure CliCall where
  args : Option (List String)
  stdin : Option String
  cwd : Option String
deriving DecidableEq

/-- All-strings check for `input.args`. -/
def allStrings (xs : List JVal) : Option (List String) :=
  xs.mapM fun v => match v with
    | .str s => some s
    | _ => none

/-- Embedding of the input-shape validation of the cli `_tool_runner`
(raised `ValueError`s are `.error`). -/
def parse_cli_input (input : Option JVal) : Except String CliCall := do
  let payload : Dict ←
    match input with
    | none => pure []
    | some (.str s) => pure [("args", .list ((shlexSplit s).map JVal.str))]
    | some (.obj fields) => pure fields
    | some _ => throw "input must be an object or string when provided"
  let args ←
    match dget payload "args" with
    | none => pure none
    | some .null => pure none
    | some (.list xs) =>
        match allStrings xs with
        | some ss => pure (some ss)
        | none => throw "input.args must be a list of strings when provided"
    | some _ => throw "input.args must be a list of strings when provided"
  let stdin ←
    match dget payload "stdin" with
    | none => pure none
    | some .null => pure none
    | some (.str s) => pure (some s)
    | some _ => throw "input.stdin must be a string when provided"
  let cwd ←
    match dget payload "cwd" with
    | none => pure none
    | some .null => pure none
    | some (.str s) => pure (some s)
    | some _ => throw "input.cwd must be a string when provided"
  return ⟨args, stdin, cwd⟩

/-- The argument vector handed to `subprocess.run`: `[command]`, extended
with `args` when that list is truthy. -/
def cli_cmd_vector (command : String) (args : Option (List String)) : List String :=
  command ::
    (match args with
     | some a => if a.isEmpty then [] else a
     | none => [])

/-- Embedding of `_run_cli`: spawn, capture, rstrip, log on non-zero exit,
and return the structured result. -/
def run_cli (exec : ExecOracle) (command : String) (call : CliCall) :
    JVal × List LogEvent :=
  let cmd := cli_cmd_vector command call.args
  let result := exec cmd call.stdin call.cwd
  let stdout := pyRStrip result.stdout
  let stderr := pyRStrip result.stderr
  let events :=
    if result.returncode ≠ 0 then [.cliProcessFailed (cmd.headD "") result.returncode]
    else []
  (.obj [("stdout", .str stdout), ("stderr", .str stderr),
         ("exit_code", .num result.returncode)], events)

/-- Embedding of the cli `_tool_runner`: validate the input shape, then run
the process. -/
def cli_tool_runner (exec : ExecOracle) (command : String) (input : Option JVal) :
    Except String (JVal × List LogEvent) := do
  let call ← parse_cli_input input
  return run_cli exec command call

/-- The argument vector a given runner input leads to (composition of the
runner's input validation with `_run_cli`'s vector construction). -/
def cliArgv (command : String) (input : Option JVal) : Except String (List String) := do
  let call ← parse_cli_input input
  return cli_cmd_vector command call.args

/-! ### Nested-call dispatcher (`tool_registration.py`) -/

/-- A call-time runner: structured-or-absent input to structured result,
with raised errors as `.error`. -/
abbrev Runner := Option JVal → Except String JVal

/-- Embedding of `_call_tool`: look the name up in the execution catalog and
invoke the stored runner, or raise `unknown tool`. -/
def call_tool (registry : List (String × Runner)) (name : String)
    (input : Option JVal) : Except String JVal :=
  match registry.lookup name with
  | none => .error ("unknown tool: " ++ name)
  | some r => r input

/-! ### Mount registry orchestrator (`registry.py`) -/

/-- The observable state of one discovery pass: the local
`published_name_to_path` map, the execution catalog
(`state["tool_runner_registry"]`), the host registrations made through
`mcp.tool(...)` (name, description, metadata) and the log. -/
structure RegState where
  pubMap : List (String × String)
  registry : List (String × RunnerRep)
  hostRegs : List (String × Option String × Option Dict)
  events : List LogEvent

/-- Embedding of `_primary_tool_alias`. -/
def _primary_tool_alias (tool_name : String) : String :=
  let final_segment := ((splitCharsOn '.' tool_name.data).map String.mk).getLastD tool_name
  let token := String.mk ((pyLower final_segment).data.filter fun c =>
    (97 ≤ c.toNat && c.toNat ≤ 122) || c.isDigit || c = '_' || c = '-')
  if token = "" then "tool" else token

/-- Embedding of `_with_tilde_routing_hint`. -/
def _with_tilde_routing_hint (tool_name : String) (description : String) : String :=
  let aliasToken := _primary_tool_alias tool_name
  let hint := "Routing hint: " ++ TOOL_INVOCATION_TAG ++ aliasToken ++
    " refers to this tool! Look for input in surrounding text."
  let base := pyStrip description
  if base = "" then hint else base ++ " " ++ hint

/-- Embedding of `_register_mounted_tool`: register with the host (with the
routing-hint description, `or None`) and insert the runner into the
execution catalog under the mounted name.  (`str(mounted["description"] or
"")` is the identity on the `String`-typed description field.) -/
def _register_mounted_tool (state : RegState) (mounted : MountedTool) : RegState :=
  let description := _with_tilde_routing_hint mounted.name mounted.description
  { state with
    hostRegs := state.hostRegs ++
      [(mounted.name, (if description = "" then none else some description), mounted.meta)]
    registry := state.registry ++ [(mounted.name, mounted.runner)]
    events := state.events }

/-- Adapter dispatch for one entry of `TOOL_TYPE_MOUNTS`. -/
def applyMount (k : MountKind) (fs : FileSys) (spec : Dict) (tool_path : String) :
    Except String (Option MountedTool × List LogEvent) :=
  match k with
  | .cli => .ok (build_cli_mount spec tool_path)
  | .python => .ok (build_python_mount fs spec tool_path)
  | .markdown => build_markdown_mount fs spec tool_path
  | .prompt => .ok (build_prompt_mount spec tool_path)

/-- One iteration of the `register_discovered_tools` loop for a discovered
`(path, raw-record)` pair. -/
def register_step (fs : FileSys) (state : RegState) (pr : String × Dict) :
    Except String RegState :=
  let tool_path := pr.1
  let raw_spec := pr.2
  let vres := validate_tool_spec raw_spec
  if vres.2 = some TOOL_SPEC_ERROR_MISSING_NAME then
    .ok { state with events := state.events ++ [.invalidMissingName tool_path] }
  else if vres.2 = some TOOL_SPEC_ERROR_MISSING_TYPE then
    let name0 := pyStrip (pyStr (pyOr (dget raw_spec "name") (.str "")))
    let name := if name0 = "" then "(missing_name)" else name0
    .ok { state with events := state.events ++ [.invalidMissingType name tool_path] }
  else
    match vres.1 with
    | none =>
        let name0 := pyStrip (pyStr (pyOr (dget raw_spec "name") (.str "")))
        let name := if name0 = "" then "(missing_name)" else name0
        let tt0 := pyLower (pyStrip (pyStr (pyOr (dget raw_spec "type") (.str ""))))
        let tool_type := if tt0 = "" then "(missing_type)" else tt0
        .ok { state with events := state.events ++ [.unsupportedType name tool_type] }
    | some spec =>
        let published_name := tool_published_name spec
        match state.pubMap.lookup published_name with
        | some existing_path =>
            .ok { state with events := state.events ++
              [.dupPublished published_name tool_path existing_path] }
        | none =>
            let state1 :=
              { state with pubMap := state.pubMap ++ [(published_name, tool_path)] }
            match dget spec "type" with
            | none => .error "KeyError: type"
            | some tv =>
                match TOOL_TYPE_MOUNTS.lookup (pyStr tv) with
                | none => .error ("KeyError: " ++ pyStr tv)
                | some k => do
                    let (mounted?, mevents) ← applyMount k fs spec tool_path
                    let state2 := { state1 with events := state1.events ++ mevents }
                    match mounted? with
                    | none => .ok state2
                    | some mounted =>
                        if (state2.registry.lookup mounted.name).isSome then
                          .ok { state2 with events := state2.events ++
                            [.dupMounted mounted.name tool_path] }
                        else .ok (_register_mounted_tool state2 mounted)

/-- Embedding of `register_discovered_tools` + `register_configured_tools`:
discover and parse specs, then run the mounting loop over them in order.
`registry0` is the initial `state["tool_runner_registry"]` (empty at
bootstrap). -/
def register_discovered_tools (yamlImport : Except String YamlParse) (fs : FileSys)
    (registry0 : List (String × RunnerRep)) : Except String RegState := do
  let (pairs, evs) ← iter_tool_specs yamlImport fs false
  List.foldlM (register_step fs)
    { pubMap := [], registry := registry0, hostRegs := [], events := evs } pairs

/-! ### Derived observables used in the claim statements -/

/-- The published name of a discovered pair when it passes validation. -/
def validatedPub (pr : String × Dict) : Option String :=
  match validate_tool_spec pr.2 with
  | (some spec, none) => some (tool_published_name spec)
  | _ => none

/-- Whether a discovered pair validates to published name `n`. -/
def collidesWith (n : String) (pr : String × Dict) : Bool :=
  validatedPub pr = some n

/-- The adapter outcome the registry would see for a validated pair. -/
def mountResult (fs : FileSys) (pr : String × Dict) :
    Option (Except String (Option MountedTool × List LogEvent)) :=
  match validate_tool_spec pr.2 with
  | (some spec, none) =>
      match dget spec "type" with
      | some tv =>
          match TOOL_TYPE_MOUNTS.lookup (pyStr tv) with
          | some k => some (applyMount k fs spec pr.1)
          | none => none
      | none => none
  | _ => none

/-- The mounted tool a validated pair yields, when its adapter succeeds. -/
def mountedOf (fs : FileSys) (pr : String × Dict) : Option MountedTool :=
  match mountResult fs pr with
  | some (.ok (m?, _)) => m?
  | _ => none

/-- The duplicate-published-name diagnostics for name `n` in a log. -/
def dupEventsFor (n : String) (evs : List LogEvent) : List LogEvent :=
  evs.filter fun e =>
    match e with
    | .dupPublished m _ _ => m = n
    | _ => false

/-- The number of catalog entries under key `n`. -/
def regCount (n : String) (reg : List (String × RunnerRep)) : Nat :=
  (reg.filter fun p => p.1 = n).length

/-- A validated descriptor is well-behaved for name agreement unless it is a
cli descriptor whose `mcp_name` is truthy but trims to the empty string. -/
def goodSpecB (spec : Dict) : Bool :=
  if pyStr ((dget spec "type").getD .null) = "cli" then
    match dget spec "mcp_name" with
    | some v => !truthy v || pyStrip (pyStr v) ≠ ""
    | none => true
  else true

/-- All validated descriptors of a pass are well-behaved for name
agreement. -/
def allSpecsGood (pairs : List (String × Dict)) : Bool :=
  pairs.all fun pr =>
    match validate_tool_spec pr.2 with
    | (some spec, none) => goodSpecB spec
    | _ => true

/-! ### Association list and event bookkeeping lemmas -/

theorem lookup_eq_none_iff_keys' {β : Type} (l : List (String × β)) (name : String) :
    l.lookup name = none ↔ ∀ p ∈ l, p.1 ≠ name := by
  induction l with
  | nil => simp
  | cons h t ih =>
    obtain ⟨k, r⟩ := h
    by_cases hk : k = name
    · subst hk
      simp [List.lookup_cons]
    · have hb : (name == k) = false := beq_false_of_ne (Ne.symm hk)
      simp [List.lookup_cons, hb, ih, hk]

theorem lookup_append_of_ne {β : Type} (l : List (String × β)) (k k2 : String) (v : β)
    (h : k ≠ k2) : (l ++ [(k, v)]).lookup k2 = l.lookup k2 := by
  rw [List.lookup_append]
  cases hl : l.lookup k2 with
  | some w => rfl
  | none =>
    simp only [Option.or]
    simp [List.lookup, beq_false_of_ne (Ne.symm h)]

theorem lookup_append_self {β : Type} (l : List (String × β)) (k : String) (v : β)
    (h : l.lookup k = none) : (l ++ [(k, v)]).lookup k = some v := by
  rw [List.lookup_append, h]
  simp [Option.or, List.lookup]

theorem lookup_append_isSome {β : Type} (l l2 : List (String × β)) (k : String)
    (h : (l.lookup k).isSome = true) : ((l ++ l2).lookup k).isSome = true := by
  rw [List.lookup_append]
  cases hl : l.lookup k with
  | some w => rfl
  | none => rw [hl] at h; simp at h

theorem regCount_append (n : String) (reg : List (String × RunnerRep))
    (k : String) (v : RunnerRep) :
    regCount n (reg ++ [(k, v)]) = regCount n reg + (if k = n then 1 else 0) := by
  unfold regCount
  rw [List.filter_append]
  by_cases h : k = n <;> simp [h]

theorem regCount_zero_iff_lookup_none (n : String) (reg : List (String × RunnerRep)) :
    regCount n reg = 0 ↔ reg.lookup n = none := by
  unfold regCount
  rw [List.length_eq_zero, List.filter_eq_nil_iff]
  constructor
  · intro h
    rw [lookup_eq_none_iff_keys']
    intro p hp
    have := h p hp
    simpa using this
  · intro h p hp
    have h2 := (lookup_eq_none_iff_keys' reg n).mp h p hp
    simpa using h2

theorem dupEventsFor_append (n : String) (e1 e2 : List LogEvent) :
    dupEventsFor n (e1 ++ e2) = dupEventsFor n e1 ++ dupEventsFor n e2 := by
  unfold dupEventsFor
  rw [List.filter_append]

theorem dupEventsFor_dup_self (n p0 p1 : String) :
    dupEventsFor n [.dupPublished n p0 p1] = [.dupPublished n p0 p1] := by
  simp [dupEventsFor]

theorem dupEventsFor_dup_other (n n2 p0 p1 : String) (h : n2 ≠ n) :
    dupEventsFor n [.dupPublished n2 p0 p1] = [] := by
  simp [dupEventsFor, h]

/-- Mount-failure diagnostics emitted by the adapters (never a duplicate
diagnostic). -/
def isMountFailEvent : LogEvent → Bool
  | .cliMissingCommand _ => true
  | .promptMissingSource _ => true
  | .markdownMissingSource _ => true
  | .markdownSourceNotFound _ _ => true
  | .pythonMissingSource _ => true
  | .pythonSourceNotFound _ _ => true
  | _ => false

theorem dupEventsFor_of_mount_fail (n : String) (evs : List LogEvent)
    (h : ∀ e ∈ evs, isMountFailEvent e = true) : dupEventsFor n evs = [] := by
  unfold dupEventsFor
  rw [List.filter_eq_nil_iff]
  intro e he
  have h2 := h e he
  cases e <;> simp_all [isMountFailEvent]

theorem not_dupMounted_of_mount_fail (evs : List LogEvent)
    (h : ∀ e ∈ evs, isMountFailEvent e = true) :
    ∀ nm p, LogEvent.dupMounted nm p ∉ evs := by
  intro nm p hmem
  have h2 := h _ hmem
  simp [isMountFailEvent] at h2

/-! ### Order properties of the path order -/

theorem charsLe_total (a b : List Char) : charsLe a b = true ∨ charsLe b a = true := by
  induction a generalizing b with
  | nil => left; rfl
  | cons x xs ih =>
    cases b with
    | nil => right; rfl
    | cons y ys =>
      by_cases hxy : x.toNat < y.toNat
      · left; simp [charsLe, hxy]
      · by_cases hyx : y.toNat < x.toNat
        · right; simp [charsLe, hyx]
        · rcases ih ys with h | h
          · left; simp [charsLe, hxy, hyx, h]
          · right; simp [charsLe, hxy, hyx, h]

theorem charsLe_trans {a b c : List Char} (hab : charsLe a b = true)
    (hbc : charsLe b c = true) : charsLe a c = true := by
  induction a generalizing b c with
  | nil => rfl
  | cons x xs ih =>
    cases b with
    | nil => simp [charsLe] at hab
    | cons y ys =>
      cases c with
      | nil => simp [charsLe] at hbc
      | cons z zs =>
        simp only [charsLe] at hab hbc ⊢
        by_cases hxy : x.toNat < y.toNat
        · have hyx : ¬ y.toNat < x.toNat := by omega
          by_cases hyz : y.toNat < z.toNat
          · have hxz : x.toNat < z.toNat := by omega
            simp [hxz]
          · by_cases hzy : z.toNat < y.toNat
            · simp [hyz, hzy] at hbc
            · have hxz : x.toNat < z.toNat := by omega
              simp [hxz]
        · by_cases hyx : y.toNat < x.toNat
          · simp [hxy, hyx] at hab
          · by_cases hyz : y.toNat < z.toNat
            · have hxz : x.toNat < z.toNat := by omega
              simp [hxz]
            · by_cases hzy : z.toNat < y.toNat
              · simp [hyz, hzy] at hbc
              · have h1 : ¬ x.toNat < z.toNat := by omega
                have h2 : ¬ z.toNat < x.toNat := by omega
                simp only [if_neg hxy, if_neg hyx] at hab
                simp only [if_neg hyz, if_neg hzy] at hbc
                simp only [if_neg h1, if_neg h2]
                exact ih hab hbc

theorem charsLe_antisymm {a b : List Char} (hab : charsLe a b = true)
    (hba : charsLe b a = true) : a = b := by
  induction a generalizing b with
  | nil =>
    cases b with
    | nil => rfl
    | cons y ys => simp [charsLe] at hba
  | cons x xs ih =>
    cases b with
    | nil => simp [charsLe] at hab
    | cons y ys =>
      simp only [charsLe] at hab hba
      by_cases hxy : x.toNat < y.toNat
      · have hyx : ¬ y.toNat < x.toNat := by omega
        simp [hyx, hxy] at hba
      · by_cases hyx : y.toNat < x.toNat
        · simp [hxy, hyx] at hab
        · simp only [if_neg hxy, if_neg hyx] at hab
          simp only [if_neg hyx, if_neg hxy] at hba
          have h1 : x.toNat = y.toNat := by omega
          have hx : x = y := Char.ext (UInt32.ext h1)
          rw [hx, ih hab hba]

instance : IsTotal String pathLe :=
  ⟨fun a b => charsLe_total a.data b.data⟩

instance : IsTrans String pathLe :=
  ⟨fun _ _ _ hab hbc => charsLe_trans hab hbc⟩

instance : IsAntisymm String pathLe :=
  ⟨fun a b hab hba => by
    have h := charsLe_antisymm hab hba
    exact String.ext h⟩

/-! ### Properties of discovery (`iter_tool_spec_paths`) -/

theorem iter_tool_spec_paths_sorted (fs : FileSys) (b : Bool) :
    List.Sorted pathLe (iter_tool_spec_paths fs b) := by
  unfold iter_tool_spec_paths
  cases hx : fs.toolsDirExists with
  | false => simp
  | true =>
    simp only [hx, Bool.not_true, Bool.false_eq_true, if_false]
    cases b with
    | true => simpa using List.sorted_insertionSort pathLe _
    | false =>
      simpa using (List.sorted_insertionSort pathLe _).filter _

theorem iter_tool_spec_paths_nodup (fs : FileSys) (b : Bool) :
    (iter_tool_spec_paths fs b).Nodup := by
  unfold iter_tool_spec_paths
  cases hx : fs.toolsDirExists with
  | false => simp
  | true =>
    simp only [hx, Bool.not_true, Bool.false_eq_true, if_false]
    have hnd : (List.insertionSort pathLe
        ((fs.files.filter (fun p => fileNameOf p = "TOOL.yaml") ++
          fs.files.filter (fun p => fileNameOf p = "TOOL.yml")).dedup)).Nodup :=
      (List.perm_insertionSort pathLe _).nodup_iff.mpr (List.nodup_dedup _)
    cases b with
    | true => simpa using hnd
    | false => simpa using hnd.filter _

theorem mem_iter_tool_spec_paths (fs : FileSys) (b : Bool) (p : String) :
    p ∈ iter_tool_spec_paths fs b ↔
      fs.toolsDirExists = true ∧ p ∈ fs.files ∧
      (fileNameOf p = "TOOL.yaml" ∨ fileNameOf p = "TOOL.yml") ∧
      (b = true ∨ "templates" ∉ pathParts p) := by
  unfold iter_tool_spec_paths
  cases hx : fs.toolsDirExists with
  | false => simp
  | true =>
    simp only [hx, Bool.not_true, Bool.false_eq_true, if_false]
    cases b with
    | true =>
      simp [(List.perm_insertionSort pathLe _).mem_iff, List.mem_dedup,
        List.mem_append, List.mem_filter]
      tauto
    | false =>
      simp [List.mem_filter, (List.perm_insertionSort pathLe _).mem_iff,
        List.mem_dedup, List.mem_append]
      tauto

theorem iter_tool_spec_paths_perm (fs1 fs2 : FileSys) (b : Bool)
    (hd : fs1.toolsDirExists = fs2.toolsDirExists) (hp : fs1.files.Perm fs2.files) :
    iter_tool_spec_paths fs1 b = iter_tool_spec_paths fs2 b := by
  unfold iter_tool_spec_paths
  rw [hd]
  cases hx : fs2.toolsDirExists with
  | false => simp
  | true =>
    simp only [hx, Bool.not_true, Bool.false_eq_true, if_false]
    have hperm :
        ((fs1.files.filter (fun p => fileNameOf p = "TOOL.yaml") ++
          fs1.files.filter (fun p => fileNameOf p = "TOOL.yml")).dedup).Perm
        ((fs2.files.filter (fun p => fileNameOf p = "TOOL.yaml") ++
          fs2.files.filter (fun p => fileNameOf p = "TOOL.yml")).dedup) :=
      List.Perm.dedup ((hp.filter _).append (hp.filter _))
    have hps : (List.insertionSort pathLe
        ((fs1.files.filter (fun p => fileNameOf p = "TOOL.yaml") ++
          fs1.files.filter (fun p => fileNameOf p = "TOOL.yml")).dedup)).Perm
        (List.insertionSort pathLe
        ((fs2.files.filter (fun p => fileNameOf p = "TOOL.yaml") ++
          fs2.files.filter (fun p => fileNameOf p = "TOOL.yml")).dedup)) :=
      ((List.perm_insertionSort pathLe _).trans hperm).trans
        (List.perm_insertionSort pathLe _).symm
    have heq := List.eq_of_perm_of_sorted hps
      (List.sorted_insertionSort pathLe _) (List.sorted_insertionSort pathLe _)
    rw [heq]

/-- C8: for every root directory, discovery yields exactly the deduplicated
set of paths named `TOOL.yaml` or `TOOL.yml` beneath it, sorted
lexicographically on resolved absolute path, with every path containing a
`templates` segment excluded unless templates are explicitly requested; the
ordered list is independent of filesystem enumeration order, so repeated
discovery over the same tree yields the same list. -/
theorem c8_spec_path_discovery (fs : FileSys) (include_templates : Bool) :
    List.Sorted pathLe (iter_tool_spec_paths fs include_templates) ∧
    (iter_tool_spec_paths fs include_templates).Nodup ∧
    (∀ p, p ∈ iter_tool_spec_paths fs include_templates ↔
      fs.toolsDirExists = true ∧ p ∈ fs.files ∧
      (fileNameOf p = "TOOL.yaml" ∨ fileNameOf p = "TOOL.yml") ∧
      (include_templates = true ∨ "templates" ∉ pathParts p)) ∧
    (∀ fs2, fs.toolsDirExists = fs2.toolsDirExists → fs.files.Perm fs2.files →
      iter_tool_spec_paths fs include_templates =
        iter_tool_spec_paths fs2 include_templates) :=
  ⟨iter_tool_spec_paths_sorted fs include_templates,
   iter_tool_spec_paths_nodup fs include_templates,
   fun p => mem_iter_tool_spec_paths fs include_templates p,
   fun fs2 hd hp => iter_tool_spec_paths_perm fs fs2 include_templates hd hp⟩

/-- Concrete tree used to witness C8. -/
def fsW8 : FileSys :=
  { toolsDirExists := true
    files := ["/t/b/TOOL.yaml", "/t/a/TOOL.yml", "/t/templates/TOOL.yaml", "/t/c/notes.txt"]
    read := fun _ => .err "unused"
    fileExists := fun _ => false }

theorem c8_spec_path_discovery_witness :
    "/t/a/TOOL.yml" ∈ iter_tool_spec_paths fsW8 false ∧
    "/t/templates/TOOL.yaml" ∉ iter_tool_spec_paths fsW8 false ∧
    iter_tool_spec_paths fsW8 false = ["/t/a/TOOL.yml", "/t/b/TOOL.yaml"] := by
  have h := c8_spec_path_discovery fsW8 false
  refine ⟨(h.2.2.1 "/t/a/TOOL.yml").mpr ⟨rfl, by decide, by decide, by decide⟩, ?_, rfl⟩
  intro hm
  have hc := (h.2.2.1 "/t/templates/TOOL.yaml").mp hm
  have hin : "templates" ∈ pathParts "/t/templates/TOOL.yaml" := by decide
  rcases hc.2.2.2 with h1 | h2
  · exact absurd h1 (by decide)
  · exact h2 hin

/-! ### Properties of the spec loader (`parse_tool_yaml` / `iter_tool_specs`) -/

/-- Whether a parsed top-level value is an object. -/
def jIsObj : JVal → Bool
  | .obj _ => true
  | _ => false

/-- The pair `iter_tool_specs` keeps for one discovered path (`None` and
falsy-dict results are skipped). -/
def parsedPairOf (yamlImport : Except String YamlParse) (fs : FileSys) (p : String) :
    Option (String × Dict) :=
  match parse_tool_yaml yamlImport fs p with
  | .ok (some d, _) => if d.isEmpty then none else some (p, d)
  | _ => none

/-- The diagnostics `parse_tool_yaml` emits for one discovered path. -/
def parseEventsOf (yamlImport : Except String YamlParse) (fs : FileSys) (p : String) :
    List LogEvent :=
  match parse_tool_yaml yamlImport fs p with
  | .ok (_, evs) => evs
  | .error _ => []

theorem parse_ok_of_read_ok (yp : YamlParse) (fs : FileSys) (p : String) (t : String)
    (h : fs.read p = .ok t) : ∃ r, parse_tool_yaml (.ok yp) fs p = .ok r := by
  unfold parse_tool_yaml
  rw [h]
  by_cases he : pyStrip t = ""
  · exact ⟨(none, []), by simp [he]⟩
  · simp only [he, if_false]
    cases hy : yp t with
    | error e => exact ⟨(none, [.parseFailed p e]), rfl⟩
    | ok v =>
      cases v with
      | obj fields => exact ⟨(some fields, []), rfl⟩
      | null => exact ⟨(none, [.notObject p]), rfl⟩
      | bool b => exact ⟨(none, [.notObject p]), rfl⟩
      | num n => exact ⟨(none, [.notObject p]), rfl⟩
      | str s => exact ⟨(none, [.notObject p]), rfl⟩
      | list xs => exact ⟨(none, [.notObject p]), rfl⟩

theorem except_bind_ok {ε α β : Type} (a : α) (f : α → Except ε β) :
    (Except.ok a >>= f : Except ε β) = f a := rfl

theorem except_bind_err {ε α β : Type} (e : ε) (f : α → Except ε β) :
    (Except.error e >>= f : Except ε β) = .error e := rfl

theorem iter_specs_go_ok (yamlImport : Except String YamlParse) (fs : FileSys)
    (ps : List String)
    (hread : ∀ p ∈ ps, ∃ r, parse_tool_yaml yamlImport fs p = .ok r) :
    iter_specs_go yamlImport fs ps =
      .ok (ps.filterMap (parsedPairOf yamlImport fs),
           (ps.map (parseEventsOf yamlImport fs)).flatten) := by
  induction ps with
  | nil => rfl
  | cons p rest ih =>
    obtain ⟨⟨spec?, evs⟩, hp⟩ := hread p (List.mem_cons_self p rest)
    have ihr := ih fun q hq => hread q (List.mem_cons_of_mem p hq)
    simp only [iter_specs_go, hp, ihr, List.filterMap_cons, List.map_cons,
      List.flatten, parsedPairOf, parseEventsOf, except_bind_ok]
    cases spec? with
    | none => simp
    | some d =>
      by_cases hd : d.isEmpty <;> simp [hd]

/-- C3 (amended): with the yaml module importable and every discovered file
readable, discovery parses all files and never fails as a whole: a file
whose text parses with an error, or parses to a non-object value, is
skipped with exactly one diagnostic naming the failing path and the reason,
and every other file is still processed; a whitespace-only file is skipped
silently with no diagnostic.  (As stated the claim also covered unreadable
files, but the source does not catch the read error: see the
counterexample, where one unreadable file aborts the entire pass.) -/
theorem c3_loader_error_isolation (yp : YamlParse) (fs : FileSys)
    (include_templates : Bool)
    (hread : ∀ p ∈ iter_tool_spec_paths fs include_templates, ∃ t, fs.read p = .ok t) :
    iter_tool_specs (.ok yp) fs include_templates =
      .ok ((iter_tool_spec_paths fs include_templates).filterMap
            (parsedPairOf (.ok yp) fs),
           ((iter_tool_spec_paths fs include_templates).map
            (parseEventsOf (.ok yp) fs)).flatten) ∧
    (∀ p t, fs.read p = .ok t → pyStrip t = "" →
        parse_tool_yaml (.ok yp) fs p = .ok (none, [])) ∧
    (∀ p t e, fs.read p = .ok t → yp t = .error e → pyStrip t ≠ "" →
        parse_tool_yaml (.ok yp) fs p = .ok (none, [.parseFailed p e]) ∧
        ∃ pre suf, renderEvent (.parseFailed p e) = pre ++ p ++ suf) ∧
    (∀ p t v, fs.read p = .ok t → yp t = .ok v → pyStrip t ≠ "" → jIsObj v = false →
        parse_tool_yaml (.ok yp) fs p = .ok (none, [.notObject p]) ∧
        ∃ pre suf, renderEvent (.notObject p) = pre ++ p ++ suf) := by
  refine ⟨?_, ?_, ?_, ?_⟩
  · exact iter_specs_go_ok _ _ _ fun p hp => by
      obtain ⟨t, ht⟩ := hread p hp
      exact parse_ok_of_read_ok yp fs p t ht
  · intro p t ht he
    simp [parse_tool_yaml, ht, he]
  · intro p t e ht hy hne
    refine ⟨?_, "[mcp-server] tool spec parse failed: ", " (" ++ e ++ ")",
      by simp [renderEvent, String.append_assoc]⟩
    simp [parse_tool_yaml, ht, hne, hy]
  · intro p t v ht hy hne hobj
    refine ⟨?_, "[mcp-server] tool spec parse failed: ",
      " (top-level YAML must be an object)",
      by simp [renderEvent, String.append_assoc]⟩
    cases v <;> simp_all [parse_tool_yaml, jIsObj]

/-- Yaml oracle for the C3 counterexample. -/
def ypW3 : YamlParse := fun s =>
  if s = "good" then .ok (.obj [("name", .str "a"), ("type", .str "prompt"), ("source", .str "hi")])
  else .error "boom"

/-- Tree for the C3 counterexample: one parseable file and one unreadable
file. -/
def fsBad3 : FileSys :=
  { toolsDirExists := true
    files := ["/t/a/TOOL.yaml", "/t/b/TOOL.yaml"]
    read := fun p => if p = "/t/a/TOOL.yaml" then .ok "good" else .err "Permission denied"
    fileExists := fun _ => false }

/-- C3 counterexample: an unreadable spec file is not skipped with a
diagnostic — the read error propagates and the whole discovery pass fails,
losing the other (perfectly good) file as well, contradicting the claim
that loading continues for all other files on an unreadable file. -/
theorem c3_counterexample :
    iter_tool_specs (.ok ypW3) fsBad3 false = .error "Permission denied" ∧
    "/t/a/TOOL.yaml" ∈ iter_tool_spec_paths fsBad3 false ∧
    "/t/b/TOOL.yaml" ∈ iter_tool_spec_paths fsBad3 false :=
  ⟨rfl, by decide, by decide⟩

/-- Contents oracle for the C3 witness. -/
def contentW3 (p : String) : String :=
  if p = "/t/good/TOOL.yaml" then "g"
  else if p = "/t/bad/TOOL.yaml" then "b"
  else if p = "/t/empty/TOOL.yaml" then "  "
  else "s"

/-- Filesystem for the C3 witness: all files readable. -/
def fsW3 : FileSys :=
  { toolsDirExists := true
    files := ["/t/good/TOOL.yaml", "/t/bad/TOOL.yaml", "/t/empty/TOOL.yaml",
              "/t/scalar/TOOL.yaml"]
    read := fun p => .ok (contentW3 p)
    fileExists := fun _ => false }

/-- Yaml oracle for the C3 witness. -/
def ypW3b : YamlParse := fun s =>
  if s = "g" then .ok (.obj [("name", .str "a")])
  else if s = "b" then .error "boom"
  else .ok (.str "v")

theorem c3_loader_error_isolation_witness :
    iter_tool_specs (.ok ypW3b) fsW3 false =
      .ok ([("/t/good/TOOL.yaml", [("name", .str "a")])],
           [.parseFailed "/t/bad/TOOL.yaml" "boom", .notObject "/t/scalar/TOOL.yaml"]) ∧
    parse_tool_yaml (.ok ypW3b) fsW3 "/t/empty/TOOL.yaml" = .ok (none, []) := by
  have h := c3_loader_error_isolation ypW3b fsW3 false
    (fun p _ => ⟨contentW3 p, rfl⟩)
  constructor
  · rw [h.1]; rfl
  · exact (h.2.1 "/t/empty/TOOL.yaml" "  " rfl (by decide))

/-! ### The nested-call dispatcher claim -/

theorem lookup_eq_none_iff_keys (registry : List (String × Runner)) (name : String) :
    registry.lookup name = none ↔ ∀ p ∈ registry, p.1 ≠ name := by
  induction registry with
  | nil => simp
  | cons h t ih =>
    obtain ⟨k, r⟩ := h
    by_cases hk : k = name
    · subst hk
      simp [List.lookup_cons]
    · have hb : (name == k) = false := beq_false_of_ne (Ne.symm hk)
      simp [List.lookup_cons, hb, ih, hk]

/-- C7: the nested-call dispatcher fails with the `unknown tool: <name>`
condition exactly on the absence path — the name being absent from the
execution catalog — and otherwise invokes the stored runner with the given
input and returns that runner's result unchanged. -/
theorem c7_call_tool_dispatch (registry : List (String × Runner)) (name : String)
    (input : Option JVal) :
    (registry.lookup name = none ↔ ∀ p ∈ registry, p.1 ≠ name) ∧
    (registry.lookup name = none →
      call_tool registry name input = .error ("unknown tool: " ++ name)) ∧
    (∀ r, registry.lookup name = some r →
      call_tool registry name input = r input) := by
  refine ⟨lookup_eq_none_iff_keys registry name, ?_, ?_⟩
  · intro h
    simp [call_tool, h]
  · intro r h
    simp [call_tool, h]

theorem c7_call_tool_dispatch_witness :
    call_tool [("a", fun _ => .ok (.str "r"))] "b" none = .error "unknown tool: b" ∧
    call_tool [("a", fun _ => .ok (.str "r"))] "a" none = .ok (.str "r") := by
  have hb := c7_call_tool_dispatch [("a", fun _ => .ok (.str "r"))] "b" none
  have ha := c7_call_tool_dispatch [("a", fun _ => .ok (.str "r"))] "a" none
  exact ⟨hb.2.1 rfl, ha.2.2 (fun _ => .ok (.str "r")) rfl⟩

/-! ### The static-text round-trip claim -/

/-- C2: for every structured input, a static-text runner echoes the input
verbatim in the `input` field, returns exactly the shape
`{text, input, type}`, and its `text` ends with the literal marker
`input: ` followed by the canonical JSON serialization of the input; the
`type` field is `prompt` for inline mounts and `markdown` for file-backed
mounts. -/
theorem c2_static_text_round_trip (prompt_text tool_kind : String) (input : Dict) :
    prompt_tool_runner prompt_text tool_kind (some input) =
      .obj [("text", .str (PROMPT_TOOL_RESPONSE_HINT ++ "\n\n" ++ prompt_text ++
              "\n\n---\ninput: " ++ jdump (.obj input))),
            ("input", .obj input),
            ("type", .str tool_kind)] ∧
    (∃ pre, PROMPT_TOOL_RESPONSE_HINT ++ "\n\n" ++ prompt_text ++
        "\n\n---\ninput: " ++ jdump (.obj input) =
        pre ++ ("input: " ++ jdump (.obj input))) ∧
    (∀ tool tool_path m evs, build_prompt_mount tool tool_path = (some m, evs) →
        ∃ pt, m.runner = .promptText pt "prompt") ∧
    (∀ fs tool tool_path m evs,
        build_markdown_mount fs tool tool_path = .ok (some m, evs) →
        ∃ pt, m.runner = .promptText pt "markdown") := by
  refine ⟨?_, ?_, ?_, ?_⟩
  · unfold prompt_tool_runner
    by_cases h : input.isEmpty
    · rw [List.isEmpty_iff] at h
      subst h
      rfl
    · simp [h]
  · refine ⟨PROMPT_TOOL_RESPONSE_HINT ++ "\n\n" ++ prompt_text ++ "\n\n---\n", ?_⟩
    have hsplit : "\n\n---\ninput: " = "\n\n---\n" ++ "input: " := rfl
    rw [hsplit]
    simp only [String.append_assoc]
  · intro tool tool_path m evs h
    unfold build_prompt_mount at h
    rcases hdg : dget tool "source" with _ | v <;> rw [hdg] at h
    · simp at h
    · cases v with
      | str s =>
          by_cases hs : pyStrip s = ""
          · simp [hs] at h
          · simp [hs] at h
            exact ⟨s, by rw [← h.1]; rfl⟩
      | null => simp at h
      | bool b => simp at h
      | num n => simp at h
      | list xs => simp at h
      | obj fs => simp at h
  · intro fs tool tool_path m evs h
    unfold build_markdown_mount at h
    rcases hdg : dget tool "source" with _ | v <;> rw [hdg] at h
    · simp at h
    · cases v with
      | str s =>
          by_cases hs : pyStrip s = ""
          · simp [hs] at h
          · simp only [hs, if_false] at h
            by_cases hex : fs.fileExists (pathJoin (pathParent tool_path) s)
            · simp only [hex, Bool.not_true, Bool.false_eq_true, if_false] at h
              rcases hr : fs.read (pathJoin (pathParent tool_path) s) with text | msg <;>
                rw [hr] at h
              · have h3 : Except.ok
                    (some (build_text_prompt_mount tool text
                      (pathJoin (pathParent tool_path) s) "markdown"),
                     ([] : List LogEvent)) = Except.ok (some m, evs) := h
                have h4 := Except.ok.inj h3
                have h6 : some (build_text_prompt_mount tool text
                    (pathJoin (pathParent tool_path) s) "markdown") = some m :=
                  congrArg Prod.fst h4
                have h8 := Option.some.inj h6
                exact ⟨text, by rw [← h8]; rfl⟩
              · exact absurd h (by simp)
            · simp [hex] at h
      | null => simp at h
      | bool b => simp at h
      | num n => simp at h
      | list xs => simp at h
      | obj fields => simp at h

theorem c2_static_text_round_trip_witness :
    prompt_tool_runner "hello" "prompt" (some [("k", .str "v")]) =
      .obj [("text", .str (PROMPT_TOOL_RESPONSE_HINT ++ "\n\nhello\n\n---\ninput: " ++
              "\x7b\"k\": \"v\"\x7d")),
            ("input", .obj [("k", .str "v")]),
            ("type", .str "prompt")] ∧
    (build_prompt_mount [("name", .str "x"), ("type", .str "prompt"), ("source", .str "hi")]
        "/p/TOOL.yaml").1.map MountedTool.runner = some (.promptText "hi" "prompt") := by
  have h := c2_static_text_round_trip "hello" "prompt" [("k", .str "v")]
  have hj : jdump (.obj [("k", .str "v")]) = "\x7b\"k\": \"v\"\x7d" := by
    rw [jdump]
    simp [List.attach, List.attachWith, List.pmap, jdump, jsonQuote, jsonEscapeChar]
    decide
  constructor
  · rw [h.1, hj]
    rfl
  · have hm := h.2.2.1
      [("name", .str "x"), ("type", .str "prompt"), ("source", .str "hi")]
      "/p/TOOL.yaml"
      (build_text_prompt_mount
        [("name", .str "x"), ("type", .str "prompt"), ("source", .str "hi")]
        "hi" "/p/TOOL.yaml" "prompt")
      [] rfl
    rfl

/-! ### The command-adapter claims -/

/-- C4: whenever the child process of a cli runner completes with a
non-zero exit code, the runner returns normally with the structured
`{stdout, stderr, exit_code}` mapping carrying that exit code, with stdout
and stderr captured and right-stripped, and emits exactly one diagnostic log
event; the non-zero exit is never raised as an error. -/
theorem c4_cli_nonzero_exit (exec : ExecOracle) (command : String)
    (input : Option JVal) (call : CliCall)
    (hp : parse_cli_input input = .ok call)
    (hc : (exec (cli_cmd_vector command call.args) call.stdin call.cwd).returncode ≠ 0) :
    cli_tool_runner exec command input =
      .ok (.obj
            [("stdout", .str (pyRStrip
                (exec (cli_cmd_vector command call.args) call.stdin call.cwd).stdout)),
             ("stderr", .str (pyRStrip
                (exec (cli_cmd_vector command call.args) call.stdin call.cwd).stderr)),
             ("exit_code", .num
                (exec (cli_cmd_vector command call.args) call.stdin call.cwd).returncode)],
           [.cliProcessFailed command
              (exec (cli_cmd_vector command call.args) call.stdin call.cwd).returncode]) := by
  unfold cli_tool_runner
  rw [hp, except_bind_ok]
  show Except.ok (run_cli exec command call) = _
  simp only [run_cli]
  rw [if_pos hc]
  rfl

/-- Oracle for the C4 witness: every spawn exits 2. -/
def execW4 : ExecOracle := fun _ _ _ => ⟨"out\n", "", 2⟩

theorem c4_cli_nonzero_exit_witness :
    cli_tool_runner execW4 "c" (some (.obj [])) =
      .ok (.obj [("stdout", .str "out"), ("stderr", .str ""), ("exit_code", .num 2)],
           [.cliProcessFailed "c" 2]) := by
  have h := c4_cli_nonzero_exit execW4 "c" (some (.obj [])) ⟨none, none, none⟩
    rfl (by decide)
  exact h.trans (by rfl)

/-- C5 counterexample: with absent input the runner passes no arguments at
all — the argument vector is `["c"]`, not `["c","a","b"]` — so absent
input, the string `"a b"` and `{"args":["a","b"]}` do not all produce the
same argument vector, contrary to the claim. -/
theorem c5_counterexample :
    cliArgv "c" none = .ok ["c"] ∧
    cliArgv "c" (some (.str "a b")) = .ok ["c", "a", "b"] ∧
    (["c"] : List String) ≠ ["c", "a", "b"] :=
  ⟨rfl, rfl, by decide⟩

/-- C5 (amended): the string `"a b"` and the structured object
`{"args":["a","b"]}` produce the same argument vector `[command, "a", "b"]`
for the spawned process, while absent input produces the bare `[command]`
invocation with no arguments. -/
theorem c5_cli_input_shapes (command : String) :
    cliArgv command (some (.str "a b")) = .ok (command :: ["a", "b"]) ∧
    cliArgv command (some (.obj [("args", .list [.str "a", .str "b"])])) =
      .ok (command :: ["a", "b"]) ∧
    cliArgv command none = .ok [command] :=
  ⟨rfl, rfl, rfl⟩

/-! ### Adapter-event classification -/

theorem build_cli_mount_events (spec : Dict) (path : String) :
    ∀ e ∈ (build_cli_mount spec path).2, isMountFailEvent e = true := by
  unfold build_cli_mount
  by_cases hc : pyStrip (pyStr (pyOr (dget spec "command") (.str ""))) = ""
  · simp [hc, isMountFailEvent]
  · simp [hc]

theorem build_prompt_mount_events (spec : Dict) (path : String) :
    ∀ e ∈ (build_prompt_mount spec path).2, isMountFailEvent e = true := by
  unfold build_prompt_mount
  cases hdg : dget spec "source" with
  | none => simp [isMountFailEvent]
  | some v =>
    cases v with
    | str s =>
        by_cases hs : pyStrip s = ""
        · simp [hs, isMountFailEvent]
        · simp [hs]
    | null => simp [isMountFailEvent]
    | bool b => simp [isMountFailEvent]
    | num n => simp [isMountFailEvent]
    | list xs => simp [isMountFailEvent]
    | obj fields => simp [isMountFailEvent]

theorem build_python_mount_events (fs : FileSys) (spec : Dict) (path : String) :
    ∀ e ∈ (build_python_mount fs spec path).2, isMountFailEvent e = true := by
  unfold build_python_mount
  cases hdg : dget spec "source" with
  | none => simp [isMountFailEvent]
  | some v =>
    cases v with
    | str s =>
        by_cases hs : pyStrip s = ""
        · simp [hs, isMountFailEvent]
        · by_cases hex : fs.fileExists (pathJoin (pathParent path) s)
          · simp [hs, hex]
          · simp [hs, hex, isMountFailEvent]
    | null => simp [isMountFailEvent]
    | bool b => simp [isMountFailEvent]
    | num n => simp [isMountFailEvent]
    | list xs => simp [isMountFailEvent]
    | obj fields => simp [isMountFailEvent]

theorem build_markdown_mount_events (fs : FileSys) (spec : Dict) (path : String)
    (r : Option MountedTool × List LogEvent)
    (h : build_markdown_mount fs spec path = .ok r) :
    ∀ e ∈ r.2, isMountFailEvent e = true := by
  unfold build_markdown_mount at h
  cases hdg : dget spec "source" with
  | none =>
    rw [hdg] at h
    rw [← Except.ok.inj h]
    simp [isMountFailEvent]
  | some v =>
    rw [hdg] at h
    cases v with
    | str s =>
        replace h : (if pyStrip s = "" then
            (Except.ok (none, [LogEvent.markdownMissingSource
              (pyStrip (pyStr (pyOr (dget spec "name") (JVal.str ""))))]) :
              Except String (Option MountedTool × List LogEvent))
          else if (!fs.fileExists (pathJoin (pathParent path) s)) = true then
            Except.ok (none, [LogEvent.markdownSourceNotFound
              (pyStrip (pyStr (pyOr (dget spec "name") (JVal.str ""))))
              (pathJoin (pathParent path) s)])
          else
            match fs.read (pathJoin (pathParent path) s) with
            | ReadResult.err msg => Except.error msg
            | ReadResult.ok text => Except.ok (some (build_text_prompt_mount spec text
                (pathJoin (pathParent path) s) "markdown"), [])) = Except.ok r := h
        by_cases hs : pyStrip s = ""
        · rw [if_pos hs] at h
          rw [← Except.ok.inj h]
          simp [isMountFailEvent]
        · rw [if_neg hs] at h
          by_cases hex : fs.fileExists (pathJoin (pathParent path) s)
          · rw [if_neg (by simp [hex])] at h
            rcases hr : fs.read (pathJoin (pathParent path) s) with text | msg <;>
              rw [hr] at h
            · rw [← Except.ok.inj h]
              simp
            · exact absurd h (by simp)
          · rw [if_pos (by simp [hex])] at h
            rw [← Except.ok.inj h]
            simp [isMountFailEvent]
    | null => rw [← Except.ok.inj h]; simp [isMountFailEvent]
    | bool b => rw [← Except.ok.inj h]; simp [isMountFailEvent]
    | num n => rw [← Except.ok.inj h]; simp [isMountFailEvent]
    | list xs => rw [← Except.ok.inj h]; simp [isMountFailEvent]
    | obj fields => rw [← Except.ok.inj h]; simp [isMountFailEvent]

theorem applyMount_events (k : MountKind) (fs : FileSys) (spec : Dict) (path : String)
    (r : Option MountedTool × List LogEvent)
    (h : applyMount k fs spec path = .ok r) :
    ∀ e ∈ r.2, isMountFailEvent e = true := by
  cases k with
  | cli =>
    rw [← Except.ok.inj h]
    exact build_cli_mount_events spec path
  | python =>
    rw [← Except.ok.inj h]
    exact build_python_mount_events fs spec path
  | markdown => exact build_markdown_mount_events fs spec path r h
  | prompt =>
    rw [← Except.ok.inj h]
    exact build_prompt_mount_events spec path

theorem c5_cli_input_shapes_witness :
    cliArgv "nu" (some (.str "a b")) = .ok ["nu", "a", "b"] ∧
    cliArgv "nu" (some (.obj [("args", .list [.str "a", .str "b"])])) =
      .ok ["nu", "a", "b"] ∧
    cliArgv "nu" none = .ok ["nu"] := by
  have h := c5_cli_input_shapes "nu"
  exact ⟨h.1, h.2.1, h.2.2⟩

/-! ### Dictionary lemmas -/

theorem dget_dset_self (d : Dict) (k : String) (v : JVal) :
    dget (dset d k v) k = some v := by
  induction d with
  | nil => simp [dset, dget]
  | cons h t ih =>
    obtain ⟨k2, w⟩ := h
    by_cases hk : k2 = k
    · simp [dset, dget, hk]
    · simp [dset, dget, hk, ih]

theorem dget_dset_ne (d : Dict) (k k2 : String) (v : JVal) (h : k ≠ k2) :
    dget (dset d k v) k2 = dget d k2 := by
  induction d with
  | nil => simp [dset, dget, h]
  | cons hd t ih =>
    obtain ⟨k3, w⟩ := hd
    by_cases hk : k3 = k
    · subst hk
      simp [dset, dget, h]
    · simp only [dset, if_neg hk, dget]
      by_cases hk2 : k3 = k2
      · simp [hk2]
      · simp [hk2, ih]

/-! ### The validator claims -/

/-- The trimmed name the validator computes for a raw record. -/
def trimmedNameOf (d : Dict) : String :=
  pyStrip (pyStr (pyOr (dget d "name") (.str "")))

/-- The trimmed, lower-cased type the validator computes for a raw record. -/
def normTypeOf (d : Dict) : String :=
  pyLower (pyStrip (pyStr (pyOr (dget d "type") (.str ""))))

theorem validate_tool_spec_eq (raw : Dict) :
    validate_tool_spec raw =
      if trimmedNameOf raw = "" then (none, some TOOL_SPEC_ERROR_MISSING_NAME)
      else if normTypeOf raw = "" then (none, some TOOL_SPEC_ERROR_MISSING_TYPE)
      else if (TOOL_TYPE_MOUNTS.lookup (normTypeOf raw)).isNone then
        (none, some TOOL_SPEC_ERROR_UNSUPPORTED_TYPE)
      else
        (some (dset (dset (dset raw "name" (.str (trimmedNameOf raw)))
            "type" (.str (normTypeOf raw))) "description"
            (.str (pyStr (pyOr
              (dget (dset (dset raw "name" (.str (trimmedNameOf raw)))
                "type" (.str (normTypeOf raw))) "description") (.str ""))))),
         none) := rfl

theorem lookup_mount_keys (tt : String) :
    (TOOL_TYPE_MOUNTS.lookup tt).isSome = true ↔
      tt ∈ ["cli", "python", "markdown", "prompt"] := by
  by_cases h1 : tt = "cli"
  · subst h1; simp [TOOL_TYPE_MOUNTS]
  · by_cases h2 : tt = "python"
    · subst h2; simp [TOOL_TYPE_MOUNTS]
    · by_cases h3 : tt = "markdown"
      · subst h3; simp [TOOL_TYPE_MOUNTS]
      · by_cases h4 : tt = "prompt"
        · subst h4; simp [TOOL_TYPE_MOUNTS]
        · have hb1 : (tt == "cli") = false := beq_false_of_ne h1
          have hb2 : (tt == "python") = false := beq_false_of_ne h2
          have hb3 : (tt == "markdown") = false := beq_false_of_ne h3
          have hb4 : (tt == "prompt") = false := beq_false_of_ne h4
          simp [TOOL_TYPE_MOUNTS, List.lookup, hb1, hb2, hb3, hb4, h1, h2, h3, h4]

/-- C6: validation of a raw record yields either a canonical descriptor —
`name` trimmed, `type` trimmed and lower-cased into the fixed set
`{cli, python, markdown, prompt}`, `description` normalized (defaulting to
the empty string), all other keys passed through untouched — or exactly one
of the three rejection codes, each characterized by its trimmed-name /
normalized-type condition; the accept/reject decision never inspects any
field other than `name` and `type`. -/
theorem c6_validate_contract (raw : Dict) :
    ((validate_tool_spec raw).1.isSome ↔ (validate_tool_spec raw).2 = none) ∧
    ((validate_tool_spec raw).2 = some TOOL_SPEC_ERROR_MISSING_NAME ↔
        trimmedNameOf raw = "") ∧
    ((validate_tool_spec raw).2 = some TOOL_SPEC_ERROR_MISSING_TYPE ↔
        trimmedNameOf raw ≠ "" ∧ normTypeOf raw = "") ∧
    ((validate_tool_spec raw).2 = some TOOL_SPEC_ERROR_UNSUPPORTED_TYPE ↔
        trimmedNameOf raw ≠ "" ∧ normTypeOf raw ≠ "" ∧
        normTypeOf raw ∉ ["cli", "python", "markdown", "prompt"]) ∧
    (∀ e, (validate_tool_spec raw).2 = some e →
        e = TOOL_SPEC_ERROR_MISSING_NAME ∨ e = TOOL_SPEC_ERROR_MISSING_TYPE ∨
        e = TOOL_SPEC_ERROR_UNSUPPORTED_TYPE) ∧
    (∀ spec, (validate_tool_spec raw).1 = some spec →
        dget spec "name" = some (.str (trimmedNameOf raw)) ∧
        trimmedNameOf raw ≠ "" ∧
        dget spec "type" = some (.str (normTypeOf raw)) ∧
        normTypeOf raw ∈ ["cli", "python", "markdown", "prompt"] ∧
        dget spec "description" =
          some (.str (pyStr (pyOr (dget raw "description") (.str "")))) ∧
        (∀ k, k ≠ "name" → k ≠ "type" → k ≠ "description" →
          dget spec k = dget raw k)) ∧
    (∀ raw2, dget raw "name" = dget raw2 "name" → dget raw "type" = dget raw2 "type" →
        (validate_tool_spec raw).2 = (validate_tool_spec raw2).2) := by
  have heq := validate_tool_spec_eq raw
  by_cases h1 : trimmedNameOf raw = ""
  · rw [if_pos h1] at heq
    refine ⟨?_, ?_, ?_, ?_, ?_, ?_, ?_⟩
    · simp [heq]
    · simp [heq, h1]
    · simp [heq, TOOL_SPEC_ERROR_MISSING_NAME, TOOL_SPEC_ERROR_MISSING_TYPE, h1]
    · simp [heq, TOOL_SPEC_ERROR_MISSING_NAME, TOOL_SPEC_ERROR_UNSUPPORTED_TYPE, h1]
    · intro e he
      rw [heq] at he
      simp at he
      exact Or.inl he.symm
    · intro spec hs
      rw [heq] at hs
      simp at hs
    · intro raw2 hn ht
      have h1b : trimmedNameOf raw2 = "" := by
        unfold trimmedNameOf at h1 ⊢
        rw [← hn]
        exact h1
      rw [validate_tool_spec_eq raw2, if_pos h1b, heq]
  · rw [if_neg h1] at heq
    by_cases h2 : normTypeOf raw = ""
    · rw [if_pos h2] at heq
      refine ⟨?_, ?_, ?_, ?_, ?_, ?_, ?_⟩
      · simp [heq]
      · simp [heq, TOOL_SPEC_ERROR_MISSING_NAME, TOOL_SPEC_ERROR_MISSING_TYPE, h1]
      · simp [heq, h1, h2]
      · simp [heq, TOOL_SPEC_ERROR_MISSING_TYPE, TOOL_SPEC_ERROR_UNSUPPORTED_TYPE, h2]
      · intro e he
        rw [heq] at he
        simp at he
        exact Or.inr (Or.inl he.symm)
      · intro spec hs
        rw [heq] at hs
        simp at hs
      · intro raw2 hn ht
        have h1b : trimmedNameOf raw2 ≠ "" := by
          unfold trimmedNameOf at h1 ⊢
          rw [← hn]
          exact h1
        have h2b : normTypeOf raw2 = "" := by
          unfold normTypeOf at h2 ⊢
          rw [← ht]
          exact h2
        rw [validate_tool_spec_eq raw2, if_neg h1b, if_pos h2b, heq]
    · rw [if_neg h2] at heq
      by_cases h3 : (TOOL_TYPE_MOUNTS.lookup (normTypeOf raw)).isNone
      · rw [if_pos h3] at heq
        have h3m : normTypeOf raw ∉ ["cli", "python", "markdown", "prompt"] := by
          intro hm
          have hsome := (lookup_mount_keys (normTypeOf raw)).mpr hm
          rw [Option.isNone_iff_eq_none] at h3
          rw [h3] at hsome
          simp at hsome
        refine ⟨?_, ?_, ?_, ?_, ?_, ?_, ?_⟩
        · simp [heq]
        · simp [heq, TOOL_SPEC_ERROR_MISSING_NAME, TOOL_SPEC_ERROR_UNSUPPORTED_TYPE, h1]
        · simp [heq, TOOL_SPEC_ERROR_MISSING_TYPE, TOOL_SPEC_ERROR_UNSUPPORTED_TYPE, h2]
        · simp [heq, h1, h2, h3m]
        · intro e he
          rw [heq] at he
          simp at he
          exact Or.inr (Or.inr he.symm)
        · intro spec hs
          rw [heq] at hs
          simp at hs
        · intro raw2 hn ht
          have h1b : trimmedNameOf raw2 ≠ "" := by
            unfold trimmedNameOf at h1 ⊢
            rw [← hn]
            exact h1
          have h2b : normTypeOf raw2 = normTypeOf raw := by
            unfold normTypeOf
            rw [← ht]
          rw [validate_tool_spec_eq raw2, if_neg h1b, h2b, if_neg h2,
            if_pos h3, heq]
      · rw [if_neg h3] at heq
        have h3m : normTypeOf raw ∈ ["cli", "python", "markdown", "prompt"] := by
          apply (lookup_mount_keys (normTypeOf raw)).mp
          simp only [Option.isNone_iff_eq_none] at h3
          cases hl : TOOL_TYPE_MOUNTS.lookup (normTypeOf raw) with
          | none => exact absurd hl h3
          | some k => rfl
        refine ⟨?_, ?_, ?_, ?_, ?_, ?_, ?_⟩
        · simp [heq]
        · simp [heq, h1]
        · simp [heq, h2]
        · simp [heq, h3m]
        · intro e he
          rw [heq] at he
          simp at he
        · intro spec hs
          rw [heq] at hs
          simp only [Option.some.injEq] at hs
          subst hs
          have hdn : ("description" : String) ≠ "name" := by decide
          have hdt : ("description" : String) ≠ "type" := by decide
          have htn : ("type" : String) ≠ "name" := by decide
          have hdesc : dget (dset (dset raw "name" (.str (trimmedNameOf raw)))
              "type" (.str (normTypeOf raw))) "description" =
              dget raw "description" := by
            rw [dget_dset_ne _ _ _ _ (by decide), dget_dset_ne _ _ _ _ (by decide)]
          refine ⟨?_, h1, ?_, h3m, ?_, ?_⟩
          · rw [dget_dset_ne _ _ _ _ (by decide), dget_dset_ne _ _ _ _ (by decide),
              dget_dset_self]
          · rw [dget_dset_ne _ _ _ _ (by decide), dget_dset_self]
          · rw [dget_dset_self, hdesc]
          · intro k hk1 hk2 hk3
            rw [dget_dset_ne _ _ _ _ (Ne.symm hk3), dget_dset_ne _ _ _ _ (Ne.symm hk2),
              dget_dset_ne _ _ _ _ (Ne.symm hk1)]
        · intro raw2 hn ht
          have h1b : trimmedNameOf raw2 ≠ "" := by
            unfold trimmedNameOf at h1 ⊢
            rw [← hn]
            exact h1
          have h2b : normTypeOf raw2 = normTypeOf raw := by
            unfold normTypeOf
            rw [← ht]
          rw [validate_tool_spec_eq raw2, if_neg h1b, h2b, if_neg h2,
            if_neg h3, heq]

theorem c6_validate_contract_witness :
    (validate_tool_spec [("name", .str " x "), ("type", .str " CLI "),
        ("command", .str "echo")]).1 =
      some [("name", .str "x"), ("type", .str "cli"), ("command", .str "echo"),
        ("description", .str "")] ∧
    (validate_tool_spec [("type", .str "cli")]).2 = some "missing_name" ∧
    (validate_tool_spec [("name", .str "x"), ("type", .str "weird")]).2 =
      some "unsupported_type" ∧
    dget [("name", .str "x"), ("type", .str "cli"), ("command", .str "echo"),
        ("description", .str "")] "command" = some (.str "echo") := by
  have h := c6_validate_contract
    [("name", .str " x "), ("type", .str " CLI "), ("command", .str "echo")]
  have hcmd := (h.2.2.2.2.2.1
    [("name", .str "x"), ("type", .str "cli"), ("command", .str "echo"),
      ("description", .str "")] rfl).2.2.2.2.2 "command" (by decide) (by decide)
    (by decide)
  exact ⟨rfl, rfl, rfl, by rw [hcmd]; rfl⟩

/-! ### The no-mutation claim about validation -/

/-- C10: the heap-level validator never mutates any pre-existing record: it
copies the argument into a fresh cell and performs its item assignments
there, so every store cell that existed before the call — in particular the
raw record passed in, with its untrimmed name, un-lowercased type and
absent description — is unchanged after it. -/
theorem c10_validate_no_mutation (store : List Dict) (raw_ref : Nat)
    (i : Nat) (hi : i < store.length) :
    ((validate_tool_spec_heap store raw_ref).1)[i]? = store[i]? := by
  unfold validate_tool_spec_heap
  have happ : (store ++ [store.getD raw_ref []])[i]? = store[i]? :=
    List.getElem?_append_left hi
  have hset : ∀ (st : List Dict) (k : String) (v : JVal),
      st[i]? = store[i]? →
      (heapSet st store.length k v)[i]? = store[i]? := by
    intro st k v hst
    unfold heapSet
    rw [List.getElem?_set_ne (by omega)]
    exact hst
  by_cases h1 : pyStrip (pyStr (pyOr
      (dget ((store ++ [store.getD raw_ref []]).getD store.length []) "name")
      (.str ""))) = ""
  · simp only [if_pos h1]
    exact happ
  · simp only [if_neg h1]
    by_cases h2 : pyLower (pyStrip (pyStr (pyOr
        (dget ((store ++ [store.getD raw_ref []]).getD store.length []) "type")
        (.str "")))) = ""
    · simp only [if_pos h2]
      exact happ
    · simp only [if_neg h2]
      by_cases h3 : (TOOL_TYPE_MOUNTS.lookup (pyLower (pyStrip (pyStr (pyOr
          (dget ((store ++ [store.getD raw_ref []]).getD store.length []) "type")
          (.str "")))))).isNone
      · simp only [if_pos h3]
        exact happ
      · simp only [if_neg h3]
        exact hset _ _ _ (hset _ _ _ (hset _ _ _ happ))

/-! ### Names computed by the adapters agree with the published name -/

theorem pair_some_inj {α β : Type} {a m : α} {b c : β}
    (h : ((some a, b) : Option α × β) = (some m, c)) : a = m := by
  have h2 := congrArg Prod.fst h
  simpa using h2

/-! ### Idempotence of stripping -/

theorem dropWhile_of_head_not {p : Char → Bool} {l : List Char}
    (h : ∀ c, l.head? = some c → p c = false) : l.dropWhile p = l := by
  cases l with
  | nil => rfl
  | cons a t => simp [List.dropWhile_cons, h a rfl]

theorem head_dropWhile_not (p : Char → Bool) (l : List Char) :
    ∀ c, (l.dropWhile p).head? = some c → p c = false := by
  induction l with
  | nil => simp
  | cons a t ih =>
    intro c hc
    by_cases hp : p a
    · rw [List.dropWhile_cons, if_pos hp] at hc
      exact ih c hc
    · rw [List.dropWhile_cons, if_neg hp] at hc
      simp only [List.head?_cons, Option.some.injEq] at hc
      rw [← hc]
      simpa using hp

theorem lastNot_dropWhile {p : Char → Bool} {l : List Char}
    (h : ∀ c, l.reverse.head? = some c → p c = false) :
    ∀ c, (l.dropWhile p).reverse.head? = some c → p c = false := by
  induction l with
  | nil => simp
  | cons a t ih =>
    by_cases hp : p a
    · simp only [List.dropWhile_cons, hp, if_true]
      apply ih
      intro c hc
      apply h
      rw [List.reverse_cons]
      cases ht : t.reverse with
      | nil => rw [ht] at hc; simp at hc
      | cons b bs =>
        rw [ht] at hc
        simpa using hc
    · simpa [List.dropWhile_cons, hp] using h

theorem pyStripL_idem (l : List Char) : pyStripL (pyStripL l) = pyStripL l := by
  have hlast : ∀ c, ((l.dropWhile pySpace).reverse.dropWhile pySpace).head? = some c →
      pySpace c = false := head_dropWhile_not pySpace _
  have hhead : ∀ c, (pyStripL l).head? = some c → pySpace c = false := by
    intro c hc
    unfold pyStripL at hc
    refine lastNot_dropWhile (l := (l.dropWhile pySpace).reverse) ?_ c hc
    intro c2 hc2
    rw [List.reverse_reverse] at hc2
    exact head_dropWhile_not pySpace l c2 hc2
  have h1 : (pyStripL l).dropWhile pySpace = pyStripL l :=
    dropWhile_of_head_not hhead
  have h2 : (pyStripL l).reverse.dropWhile pySpace = (pyStripL l).reverse := by
    apply dropWhile_of_head_not
    intro c hc
    unfold pyStripL at hc
    rw [List.reverse_reverse] at hc
    exact hlast c hc
  show ((((pyStripL l).dropWhile pySpace).reverse).dropWhile pySpace).reverse = pyStripL l
  rw [h1, h2, List.reverse_reverse]

theorem pyStrip_idem (s : String) : pyStrip (pyStrip s) = pyStrip s := by
  unfold pyStrip
  rw [show (String.mk (pyStripL s.data)).data = pyStripL s.data from rfl,
    pyStripL_idem]

/-! ### Inversion of validation -/

theorem validate_inversion (raw spec : Dict)
    (hv : validate_tool_spec raw = (some spec, none)) :
    dget spec "name" = some (.str (trimmedNameOf raw)) ∧
    trimmedNameOf raw ≠ "" ∧
    pyStrip (trimmedNameOf raw) = trimmedNameOf raw ∧
    dget spec "type" = some (.str (normTypeOf raw)) ∧
    (TOOL_TYPE_MOUNTS.lookup (normTypeOf raw)).isSome = true ∧
    dget spec "mcp_name" = dget raw "mcp_name" := by
  have heq := validate_tool_spec_eq raw
  by_cases h1 : trimmedNameOf raw = ""
  · rw [if_pos h1] at heq
    rw [heq] at hv
    simp at hv
  · rw [if_neg h1] at heq
    by_cases h2 : normTypeOf raw = ""
    · rw [if_pos h2] at heq
      rw [heq] at hv
      simp at hv
    · rw [if_neg h2] at heq
      by_cases h3 : (TOOL_TYPE_MOUNTS.lookup (normTypeOf raw)).isNone
      · rw [if_pos h3] at heq
        rw [heq] at hv
        simp at hv
      · rw [if_neg h3] at heq
        rw [heq] at hv
        simp only [Prod.mk.injEq, Option.some.injEq] at hv
        have hspec := hv.1
        subst hspec
        refine ⟨?_, h1, ?_, ?_, ?_, ?_⟩
        · rw [dget_dset_ne _ _ _ _ (by decide), dget_dset_ne _ _ _ _ (by decide),
            dget_dset_self]
        · exact pyStrip_idem _
        · rw [dget_dset_ne _ _ _ _ (by decide), dget_dset_self]
        · cases hl : TOOL_TYPE_MOUNTS.lookup (normTypeOf raw) with
          | none => rw [Option.isNone_iff_eq_none] at h3; exact absurd hl h3
          | some k => rfl
        · rw [dget_dset_ne _ _ _ _ (by decide), dget_dset_ne _ _ _ _ (by decide),
            dget_dset_ne _ _ _ _ (by decide)]

theorem validate_shape (raw : Dict) :
    (∃ spec, validate_tool_spec raw = (some spec, none)) ∨
    (∃ e, validate_tool_spec raw = (none, some e)) := by
  have heq := validate_tool_spec_eq raw
  by_cases h1 : trimmedNameOf raw = ""
  · rw [if_pos h1] at heq
    exact Or.inr ⟨_, heq⟩
  · rw [if_neg h1] at heq
    by_cases h2 : normTypeOf raw = ""
    · rw [if_pos h2] at heq
      exact Or.inr ⟨_, heq⟩
    · rw [if_neg h2] at heq
      by_cases h3 : (TOOL_TYPE_MOUNTS.lookup (normTypeOf raw)).isNone
      · rw [if_pos h3] at heq
        exact Or.inr ⟨_, heq⟩
      · rw [if_neg h3] at heq
        exact Or.inl ⟨_, heq⟩

theorem trimmed_name_from_spec (spec : Dict) (nm : String)
    (hnm : dget spec "name" = some (.str nm)) (hne : nm ≠ "")
    (hstrip : pyStrip nm = nm) :
    pyStrip (pyStr (pyOr (dget spec "name") (.str ""))) = nm := by
  rw [hnm]
  simp [pyOr, truthy, hne, pyStr, hstrip]

theorem build_cli_mount_name (spec : Dict) (tool_path : String) (nm : String)
    (hnm : dget spec "name" = some (.str nm)) (hne : nm ≠ "")
    (hstrip : pyStrip nm = nm)
    (m : MountedTool) (evs : List LogEvent)
    (h : build_cli_mount spec tool_path = (some m, evs)) :
    m.name = pyStrip (pyStr (pyOr (dget spec "mcp_name") (.str nm))) := by
  have htrim := trimmed_name_from_spec spec nm hnm hne hstrip
  simp only [build_cli_mount, htrim] at h
  rw [if_pos hne] at h
  by_cases hc : pyStrip (pyStr (pyOr (dget spec "command") (.str ""))) = ""
  · rw [if_pos hc] at h
    simp at h
  · rw [if_neg hc] at h
    rw [← pair_some_inj h]

theorem build_python_mount_name (fs : FileSys) (spec : Dict) (tool_path : String)
    (m : MountedTool) (evs : List LogEvent)
    (h : build_python_mount fs spec tool_path = (some m, evs)) :
    m.name = pyStrip (pyStr (pyOr (dget spec "name") (.str ""))) := by
  unfold build_python_mount at h
  rcases hdg : dget spec "source" with _ | v <;> rw [hdg] at h
  · simp at h
  · cases v with
    | str s =>
        by_cases hs : pyStrip s = ""
        · simp [hs] at h
        · simp only [hs, if_false] at h
          by_cases hex : fs.fileExists (pathJoin (pathParent tool_path) s)
          · simp only [hex, Bool.not_true, Bool.false_eq_true, if_false] at h
            rw [← pair_some_inj h]
          · simp [hex] at h
    | null => simp at h
    | bool b => simp at h
    | num n => simp at h
    | list xs => simp at h
    | obj fields => simp at h

theorem build_prompt_mount_name (spec : Dict) (tool_path : String)
    (m : MountedTool) (evs : List LogEvent)
    (h : build_prompt_mount spec tool_path = (some m, evs)) :
    m.name = pyStrip (pyStr (pyOr (dget spec "name") (.str ""))) := by
  unfold build_prompt_mount at h
  rcases hdg : dget spec "source" with _ | v <;> rw [hdg] at h
  · simp at h
  · cases v with
    | str s =>
        by_cases hs : pyStrip s = ""
        · simp [hs] at h
        · simp only [hs, if_false] at h
          rw [← pair_some_inj h]
          rfl
    | null => simp at h
    | bool b => simp at h
    | num n => simp at h
    | list xs => simp at h
    | obj fields => simp at h

theorem build_markdown_mount_name (fs : FileSys) (spec : Dict) (tool_path : String)
    (m : MountedTool) (evs : List LogEvent)
    (h : build_markdown_mount fs spec tool_path = .ok (some m, evs)) :
    m.name = pyStrip (pyStr (pyOr (dget spec "name") (.str ""))) := by
  unfold build_markdown_mount at h
  rcases hdg : dget spec "source" with _ | v <;> rw [hdg] at h
  · simp at h
  · cases v with
    | str s =>
        by_cases hs : pyStrip s = ""
        · simp [hs] at h
        · simp only [hs, if_false] at h
          by_cases hex : fs.fileExists (pathJoin (pathParent tool_path) s)
          · simp only [hex, Bool.not_true, Bool.false_eq_true, if_false] at h
            rcases hr : fs.read (pathJoin (pathParent tool_path) s) with text | msg <;>
              rw [hr] at h
            · have h3 : Except.ok
                  (some (build_text_prompt_mount spec text
                    (pathJoin (pathParent tool_path) s) "markdown"),
                   ([] : List LogEvent)) = Except.ok (some m, evs) := h
              rw [← pair_some_inj (Except.ok.inj h3)]
              rfl
            · exact absurd h (by simp)
          · simp [hex] at h
    | null => simp at h
    | bool b => simp at h
    | num n => simp at h
    | list xs => simp at h
    | obj fields => simp at h

theorem goodSpecB_cli_mcp (spec : Dict) (hg : goodSpecB spec = true)
    (htt : dget spec "type" = some (.str "cli"))
    (v : JVal) (hdg : dget spec "mcp_name" = some v) (htr : truthy v = true) :
    pyStrip (pyStr v) ≠ "" := by
  unfold goodSpecB at hg
  rw [htt] at hg
  rw [if_pos (show pyStr ((some (JVal.str "cli")).getD JVal.null) = "cli" from rfl)] at hg
  rw [hdg] at hg
  simp only [htr, Bool.not_true, Bool.false_or] at hg
  simpa using hg

theorem mounted_name_eq_published (fs : FileSys) (spec : Dict) (tool_path : String)
    (nm : String) (hnm : dget spec "name" = some (.str nm)) (hne : nm ≠ "")
    (hstrip : pyStrip nm = nm)
    (tt : String) (htt : dget spec "type" = some (.str tt))
    (hg : goodSpecB spec = true)
    (k : MountKind) (hk : TOOL_TYPE_MOUNTS.lookup tt = some k)
    (m : MountedTool) (evs : List LogEvent)
    (hm : applyMount k fs spec tool_path = .ok (some m, evs)) :
    m.name = tool_published_name spec := by
  have htrim := trimmed_name_from_spec spec nm hnm hne hstrip
  have hmem : tt ∈ ["cli", "python", "markdown", "prompt"] :=
    (lookup_mount_keys tt).mp (by rw [hk]; rfl)
  simp only [List.mem_cons, List.mem_singleton, List.not_mem_nil, or_false] at hmem
  rcases hmem with h1 | h2 | h3 | h4
  · -- cli
    subst h1
    have hkk : k = MountKind.cli := by
      rw [show TOOL_TYPE_MOUNTS.lookup "cli" = some MountKind.cli from rfl] at hk
      exact (Option.some.inj hk).symm
    subst hkk
    simp only [applyMount] at hm
    have hb : build_cli_mount spec tool_path = (some m, evs) := Except.ok.inj hm
    have hname := build_cli_mount_name spec tool_path nm hnm hne hstrip m evs hb
    have hpub : tool_published_name spec =
        (if pyStrip (pyStr (pyOr (dget spec "mcp_name") (.str ""))) ≠ "" then
          pyStrip (pyStr (pyOr (dget spec "mcp_name") (.str "")))
        else pyStrip (pyStr (pyOr (dget spec "name") (.str "")))) := by
      unfold tool_published_name
      rw [htt]
      rw [if_pos (show pyLower (pyStrip (pyStr (pyOr (some (JVal.str "cli"))
        (JVal.str "")))) = "cli" from rfl)]
    rw [hname, hpub, htrim]
    have hz : pyStrip (pyStr (JVal.str "")) = "" := rfl
    rcases hdg : dget spec "mcp_name" with _ | v
    · rw [show pyOr none (JVal.str nm) = JVal.str nm from rfl,
        show pyOr none (JVal.str "") = JVal.str "" from rfl,
        show pyStr (JVal.str nm) = nm from rfl, hstrip, hz]
      simp
    · by_cases htr : truthy v
      · have hgv : pyStrip (pyStr v) ≠ "" := goodSpecB_cli_mcp spec hg htt v hdg htr
        simp only [pyOr, htr, if_true]
        rw [if_pos hgv]
      · have htrf : truthy v = false := by
          cases hv : truthy v
          · rfl
          · exact absurd hv htr
        simp only [pyOr, htrf, Bool.false_eq_true, if_false]
        rw [show pyStr (JVal.str nm) = nm from rfl, hstrip, hz]
        simp
  · -- python
    subst h2
    have hkk : k = MountKind.python := by
      rw [show TOOL_TYPE_MOUNTS.lookup "python" = some MountKind.python from rfl] at hk
      exact (Option.some.inj hk).symm
    subst hkk
    simp only [applyMount] at hm
    have hb : build_python_mount fs spec tool_path = (some m, evs) := Except.ok.inj hm
    have hname := build_python_mount_name fs spec tool_path m evs hb
    unfold tool_published_name
    rw [htt, if_neg (by decide), hname, htrim]
  · -- markdown
    subst h3
    have hkk : k = MountKind.markdown := by
      rw [show TOOL_TYPE_MOUNTS.lookup "markdown" = some MountKind.markdown from rfl] at hk
      exact (Option.some.inj hk).symm
    subst hkk
    simp only [applyMount] at hm
    have hname := build_markdown_mount_name fs spec tool_path m evs hm
    unfold tool_published_name
    rw [htt, if_neg (by decide), hname, htrim]
  · -- prompt
    subst h4
    have hkk : k = MountKind.prompt := by
      rw [show TOOL_TYPE_MOUNTS.lookup "prompt" = some MountKind.prompt from rfl] at hk
      exact (Option.some.inj hk).symm
    subst hkk
    simp only [applyMount] at hm
    have hb : build_prompt_mount spec tool_path = (some m, evs) := Except.ok.inj hm
    have hname := build_prompt_mount_name spec tool_path m evs hb
    unfold tool_published_name
    rw [htt, if_neg (by decide), hname, htrim]

/-! ### Effect of one registry-loop step -/

theorem mountedOf_eq (fs : FileSys) (pr : String × Dict) (spec : Dict)
    (hv : validate_tool_spec pr.2 = (some spec, none))
    (tt : String) (k : MountKind)
    (htype : dget spec "type" = some (.str tt))
    (hk2 : TOOL_TYPE_MOUNTS.lookup tt = some k)
    (m? : Option MountedTool) (mev : List LogEvent)
    (happ : applyMount k fs spec pr.1 = .ok (m?, mev)) :
    mountedOf fs pr = m? := by
  unfold mountedOf mountResult
  rw [hv]
  simp only [htype]
  rw [show pyStr (JVal.str tt) = tt from rfl]
  rw [hk2]
  simp [happ]

theorem register_step_invalid (fs : FileSys) (S : RegState) (pr : String × Dict)
    (e : String) (hv : validate_tool_spec pr.2 = (none, some e)) :
    ∃ ev : LogEvent,
      register_step fs S pr = .ok { S with events := S.events ++ [ev] } ∧
      (∀ n2, dupEventsFor n2 [ev] = []) ∧ (∀ nm p, ev ≠ .dupMounted nm p) := by
  by_cases h1 : e = TOOL_SPEC_ERROR_MISSING_NAME
  · refine ⟨.invalidMissingName pr.1, ?_, ?_, ?_⟩
    · simp [register_step, hv, h1]
    · intro n2; simp [dupEventsFor]
    · intro nm p; simp
  · by_cases h2 : e = TOOL_SPEC_ERROR_MISSING_TYPE
    · refine ⟨.invalidMissingType
        (if pyStrip (pyStr (pyOr (dget pr.2 "name") (.str ""))) = ""
         then "(missing_name)"
         else pyStrip (pyStr (pyOr (dget pr.2 "name") (.str "")))) pr.1, ?_, ?_, ?_⟩
      · have hne : TOOL_SPEC_ERROR_MISSING_TYPE ≠ TOOL_SPEC_ERROR_MISSING_NAME := by
          decide
        simp [register_step, hv, h1, h2, hne]
      · intro n2; simp [dupEventsFor]
      · intro nm p; simp
    · refine ⟨.unsupportedType
        (if pyStrip (pyStr (pyOr (dget pr.2 "name") (.str ""))) = ""
         then "(missing_name)"
         else pyStrip (pyStr (pyOr (dget pr.2 "name") (.str ""))))
        (if pyLower (pyStrip (pyStr (pyOr (dget pr.2 "type") (.str "")))) = ""
         then "(missing_type)"
         else pyLower (pyStrip (pyStr (pyOr (dget pr.2 "type") (.str ""))))), ?_, ?_, ?_⟩
      · simp [register_step, hv, h1, h2]
      · intro n2; simp [dupEventsFor]
      · intro nm p; simp

theorem register_step_claimed (fs : FileSys) (S : RegState) (pr : String × Dict)
    (spec : Dict) (p0 : String)
    (hv : validate_tool_spec pr.2 = (some spec, none))
    (hlk : S.pubMap.lookup (tool_published_name spec) = some p0) :
    register_step fs S pr = .ok { S with events := S.events ++
      [.dupPublished (tool_published_name spec) pr.1 p0] } := by
  simp [register_step, hv, hlk]

theorem register_step_unclaimed (fs : FileSys) (S : RegState) (pr : String × Dict)
    (spec : Dict) (S2 : RegState)
    (hv : validate_tool_spec pr.2 = (some spec, none))
    (hg : goodSpecB spec = true)
    (hlk : S.pubMap.lookup (tool_published_name spec) = none)
    (h : register_step fs S pr = .ok S2) :
    S2.pubMap = S.pubMap ++ [(tool_published_name spec, pr.1)] ∧
    (∃ mevents, (∀ e ∈ mevents, isMountFailEvent e = true) ∧
      ((S2.events = S.events ++ mevents ∧
         ((mountedOf fs pr = none ∧ S2.registry = S.registry ∧
            S2.hostRegs = S.hostRegs) ∨
          (∃ m, mountedOf fs pr = some m ∧
             S.registry.lookup (tool_published_name spec) = none ∧
             S2.registry = S.registry ++ [(tool_published_name spec, m.runner)] ∧
             ∃ d, S2.hostRegs = S.hostRegs ++
               [(tool_published_name spec, d, m.meta)]))) ∨
       (∃ m, mountedOf fs pr = some m ∧
          (S.registry.lookup (tool_published_name spec)).isSome = true ∧
          S2.events = S.events ++ mevents ++
            [.dupMounted (tool_published_name spec) pr.1] ∧
          S2.registry = S.registry ∧ S2.hostRegs = S.hostRegs))) := by
  obtain ⟨hname, hnne, hnstrip, htype, hlks, hmcp⟩ := validate_inversion pr.2 spec hv
  rcases hk2 : TOOL_TYPE_MOUNTS.lookup (normTypeOf pr.2) with _ | k
  · rw [hk2] at hlks
    simp at hlks
  rcases happ : applyMount k fs spec pr.1 with err | mr
  · simp [register_step, hv, hlk, htype, pyStr, hk2, happ, except_bind_err] at h
  obtain ⟨m?, mev⟩ := mr
  have hmev := applyMount_events k fs spec pr.1 (m?, mev) happ
  obtain ⟨s2p, s2r, s2h, s2e⟩ := S2
  cases m? with
  | none =>
    have hmo := mountedOf_eq fs pr spec hv (normTypeOf pr.2) k htype hk2 none mev happ
    simp [register_step, hv, hlk, htype, pyStr, hk2, happ, except_bind_ok,
      TOOL_SPEC_ERROR_MISSING_NAME, TOOL_SPEC_ERROR_MISSING_TYPE,
      RegState.mk.injEq] at h
    obtain ⟨h1, h2, h3, h4⟩ := h
    exact ⟨h1.symm, mev, hmev, Or.inl ⟨h4.symm, Or.inl ⟨hmo, h2.symm, h3.symm⟩⟩⟩
  | some m =>
    have hmo := mountedOf_eq fs pr spec hv (normTypeOf pr.2) k htype hk2 (some m) mev happ
    have hmn : m.name = tool_published_name spec :=
      mounted_name_eq_published fs spec pr.1 (trimmedNameOf pr.2) hname hnne hnstrip
        (normTypeOf pr.2) htype hg k hk2 m mev (by rw [happ])
    by_cases hrm : (S.registry.lookup m.name).isSome
    · simp [register_step, hv, hlk, htype, pyStr, hk2, happ, except_bind_ok, hrm,
        TOOL_SPEC_ERROR_MISSING_NAME, TOOL_SPEC_ERROR_MISSING_TYPE,
        RegState.mk.injEq] at h
      obtain ⟨h1, h2, h3, h4⟩ := h
      refine ⟨h1.symm, mev, hmev,
        Or.inr ⟨m, hmo, by rw [← hmn]; exact hrm, ?_, h2.symm, h3.symm⟩⟩
      rw [← h4, hmn, List.append_assoc]
    · simp [register_step, hv, hlk, htype, pyStr, hk2, happ, except_bind_ok, hrm,
        TOOL_SPEC_ERROR_MISSING_NAME, TOOL_SPEC_ERROR_MISSING_TYPE,
        _register_mounted_tool, RegState.mk.injEq] at h
      obtain ⟨h1, h2, h3, h4⟩ := h
      have hrn : S.registry.lookup (tool_published_name spec) = none := by
        rw [← hmn]
        cases hx : S.registry.lookup m.name with
        | none => rfl
        | some w => rw [hx] at hrm; simp at hrm
      refine ⟨h1.symm, mev, hmev,
        Or.inl ⟨h4.symm, Or.inr ⟨m, hmo, hrn, by rw [← h2, hmn],
          (if _with_tilde_routing_hint m.name m.description = "" then none
            else some (_with_tilde_routing_hint m.name m.description)),
          by rw [← h3, hmn]⟩⟩⟩

theorem collidesWith_iff (n : String) (pr : String × Dict) :
    collidesWith n pr = true ↔ validatedPub pr = some n := by
  simp [collidesWith]

theorem validatedPub_of_valid (pr : String × Dict) (spec : Dict)
    (hv : validate_tool_spec pr.2 = (some spec, none)) :
    validatedPub pr = some (tool_published_name spec) := by
  unfold validatedPub
  rw [hv]

theorem validatedPub_of_invalid (pr : String × Dict) (e : String)
    (hv : validate_tool_spec pr.2 = (none, some e)) :
    validatedPub pr = none := by
  unfold validatedPub
  rw [hv]

/-- Cumulative effect of the mounting loop over a list of discovered pairs:
catalog keys stay covered by claimed published names, catalog and host
registrations stay parallel, no second-duplicate diagnostic is ever logged,
every new catalog key is the published name of a validated pair, and for
each name the first-seen-wins duplicate policy holds. -/
theorem register_fold (fs : FileSys) (ps : List (String × Dict)) (S F : RegState)
    (hgood : ∀ pr ∈ ps, ∀ spec, validate_tool_spec pr.2 = (some spec, none) →
      goodSpecB spec = true)
    (hinv : ∀ k2, (S.registry.lookup k2).isSome = true →
      (S.pubMap.lookup k2).isSome = true)
    (hfold : List.foldlM (register_step fs) S ps = .ok F) :
    (∀ k2, (F.registry.lookup k2).isSome = true →
      (F.pubMap.lookup k2).isSome = true) ∧
    (S.registry.map Prod.fst = S.hostRegs.map (fun t => t.1) →
      F.registry.map Prod.fst = F.hostRegs.map (fun t => t.1)) ∧
    (∀ nm p, LogEvent.dupMounted nm p ∈ F.events ↔
      LogEvent.dupMounted nm p ∈ S.events) ∧
    (∀ k2, (F.registry.lookup k2).isSome = true →
      (S.registry.lookup k2).isSome = true ∨ ∃ pr ∈ ps, validatedPub pr = some k2) ∧
    (∀ n, S.pubMap.lookup n = none → regCount n S.registry = 0 →
      (match ps.filter (collidesWith n) with
       | [] => F.pubMap.lookup n = none ∧
           dupEventsFor n F.events = dupEventsFor n S.events ∧
           regCount n F.registry = 0
       | c0 :: ctail =>
           F.pubMap.lookup n = some c0.1 ∧
           dupEventsFor n F.events = dupEventsFor n S.events ++
             ctail.map (fun pr => LogEvent.dupPublished n pr.1 c0.1) ∧
           regCount n F.registry = (if (mountedOf fs c0).isSome then 1 else 0))) ∧
    (∀ n p0, S.pubMap.lookup n = some p0 →
      F.pubMap.lookup n = some p0 ∧
      dupEventsFor n F.events = dupEventsFor n S.events ++
        (ps.filter (collidesWith n)).map
          (fun pr => LogEvent.dupPublished n pr.1 p0) ∧
      regCount n F.registry = regCount n S.registry) := by
  induction ps generalizing S with
  | nil =>
    have hFS : S = F := Except.ok.inj hfold
    subst hFS
    refine ⟨fun k2 h => hinv k2 h, fun h => h, fun nm p => Iff.rfl,
      fun k2 h => Or.inl h, ?_, ?_⟩
    · intro n h1 h2
      simp [h1, h2]
    · intro n p0 h1
      simp [h1]
  | cons pr rest ih =>
    rw [show List.foldlM (register_step fs) S (pr :: rest) =
      (register_step fs S pr >>= fun S1 => List.foldlM (register_step fs) S1 rest)
      from rfl] at hfold
    rcases hstep : register_step fs S pr with err | S1
    · rw [hstep, except_bind_err] at hfold
      exact absurd hfold (by simp)
    rw [hstep, except_bind_ok] at hfold
    have hgood1 : ∀ q ∈ rest, ∀ spec, validate_tool_spec q.2 = (some spec, none) →
        goodSpecB spec = true :=
      fun q hq => hgood q (List.mem_cons_of_mem pr hq)
    rcases validate_shape pr.2 with ⟨spec, hvs⟩ | ⟨e, hve⟩
    · -- the pair validates
      rcases hlk : S.pubMap.lookup (tool_published_name spec) with _ | p0
      · -- published name not yet claimed
        obtain ⟨hpm, mev, hmevF, hbranch⟩ :=
          register_step_unclaimed fs S pr spec S1 hvs
            (hgood pr (List.mem_cons_self pr rest) spec hvs) hlk hstep
        have hnodup3 : ¬ ∃ m, mountedOf fs pr = some m ∧
            (S.registry.lookup (tool_published_name spec)).isSome = true ∧
            S1.events = S.events ++ mev ++
              [.dupMounted (tool_published_name spec) pr.1] ∧
            S1.registry = S.registry ∧ S1.hostRegs = S.hostRegs := by
          rintro ⟨m, _, hrs, _, _, _⟩
          have hx := hinv _ hrs
          rw [hlk] at hx
          simp at hx
        have hdupmev : ∀ n2, dupEventsFor n2 mev = [] :=
          fun n2 => dupEventsFor_of_mount_fail n2 mev hmevF
        have hnm : ∀ nm p, LogEvent.dupMounted nm p ∉ mev :=
          not_dupMounted_of_mount_fail mev hmevF
        rcases hbranch with ⟨hev, hrest⟩ | h3
        case inr => exact absurd h3 hnodup3
        have hpub : validatedPub pr = some (tool_published_name spec) :=
          validatedPub_of_valid pr spec hvs
        have hS1lk : S1.pubMap.lookup (tool_published_name spec) = some pr.1 := by
          rw [hpm]
          exact lookup_append_self _ _ _ hlk
        have hS1lk_ne : ∀ n, n ≠ tool_published_name spec →
            S1.pubMap.lookup n = S.pubMap.lookup n := by
          intro n hn
          rw [hpm]
          exact lookup_append_of_ne _ _ _ _ (fun hx => hn hx.symm)
        rcases hrest with ⟨hmo, hreg, hhost⟩ | ⟨m, hmo, hrn, hreg, d, hhost⟩
        · -- adapter declined to mount
          have hinv1 : ∀ k2, (S1.registry.lookup k2).isSome = true →
              (S1.pubMap.lookup k2).isSome = true := by
            intro k2 hk2
            rw [hreg] at hk2
            rw [hpm]
            exact lookup_append_isSome _ _ _ (hinv k2 hk2)
          obtain ⟨ih1, ih2, ih3, ih4, ih5, ih6⟩ := ih S1 hgood1 hinv1 hfold
          refine ⟨ih1, ?_, ?_, ?_, ?_, ?_⟩
          · intro hpar
            exact ih2 (by rw [hreg, hhost]; exact hpar)
          · intro nm p
            rw [ih3 nm p, hev]
            simp only [List.mem_append]
            constructor
            · rintro (hx | hx)
              · exact hx
              · exact absurd hx (hnm nm p)
            · exact fun hx => Or.inl hx
          · intro k2 hk2
            rcases ih4 k2 hk2 with hx | ⟨q, hq, hqv⟩
            · rw [hreg] at hx
              exact Or.inl hx
            · exact Or.inr ⟨q, List.mem_cons_of_mem pr hq, hqv⟩
          · intro n hn0 hr0
            by_cases hn : n = tool_published_name spec
            · have hcol : collidesWith n pr = true := by
                rw [collidesWith_iff, hpub, hn]
              rw [List.filter_cons_of_pos hcol]
              have h6 := ih6 n pr.1 (by rw [hn]; exact hS1lk)
              refine ⟨h6.1, ?_, ?_⟩
              · rw [h6.2.1, hev, dupEventsFor_append, hdupmev n]
                simp
              · rw [h6.2.2, hreg, hr0, hmo]
                simp
            · have hcol : ¬ collidesWith n pr = true := by
                rw [collidesWith_iff, hpub]
                simp
                exact fun hx => hn hx.symm
              rw [List.filter_cons_of_neg (by simpa using hcol)]
              have h5 := ih5 n (by rw [hS1lk_ne n hn]; exact hn0)
                (by rw [hreg]; exact hr0)
              rcases hfil : rest.filter (collidesWith n) with _ | ⟨c0, ctail⟩ <;>
                rw [hfil] at h5
              · refine ⟨h5.1, ?_, h5.2.2⟩
                rw [h5.2.1, hev, dupEventsFor_append, hdupmev n]
                simp
              · refine ⟨h5.1, ?_, h5.2.2⟩
                rw [h5.2.1, hev, dupEventsFor_append, hdupmev n]
                simp
          · intro n p0 hnp
            have hn : n ≠ tool_published_name spec := by
              intro hx
              rw [hx, hlk] at hnp
              exact absurd hnp (by simp)
            have hcol : ¬ collidesWith n pr = true := by
              rw [collidesWith_iff, hpub]
              simp
              exact fun hx => hn hx.symm
            rw [List.filter_cons_of_neg (by simpa using hcol)]
            have h6 := ih6 n p0 (by rw [hS1lk_ne n hn]; exact hnp)
            refine ⟨h6.1, ?_, by rw [h6.2.2, hreg]⟩
            rw [h6.2.1, hev, dupEventsFor_append, hdupmev n]
            simp
        · -- mounted and registered
          have hmn2 : ∀ k2, k2 ≠ tool_published_name spec →
              S1.registry.lookup k2 = S.registry.lookup k2 := by
            intro k2 hk2
            rw [hreg]
            exact lookup_append_of_ne _ _ _ _ (fun hx => hk2 hx.symm)
          have hinv1 : ∀ k2, (S1.registry.lookup k2).isSome = true →
              (S1.pubMap.lookup k2).isSome = true := by
            intro k2 hk2
            by_cases hx : k2 = tool_published_name spec
            · subst hx
              rw [hS1lk]
              rfl
            · rw [hmn2 k2 hx] at hk2
              rw [hpm]
              exact lookup_append_isSome _ _ _ (hinv k2 hk2)
          obtain ⟨ih1, ih2, ih3, ih4, ih5, ih6⟩ := ih S1 hgood1 hinv1 hfold
          refine ⟨ih1, ?_, ?_, ?_, ?_, ?_⟩
          · intro hpar
            apply ih2
            rw [hreg, hhost, List.map_append, List.map_append, hpar]
            simp
          · intro nm p
            rw [ih3 nm p, hev]
            simp only [List.mem_append]
            constructor
            · rintro (hx | hx)
              · exact hx
              · exact absurd hx (hnm nm p)
            · exact fun hx => Or.inl hx
          · intro k2 hk2
            rcases ih4 k2 hk2 with hx | ⟨q, hq, hqv⟩
            · by_cases hx2 : k2 = tool_published_name spec
              · subst hx2
                exact Or.inr ⟨pr, List.mem_cons_self pr rest, hpub⟩
              · rw [hmn2 k2 hx2] at hx
                exact Or.inl hx
            · exact Or.inr ⟨q, List.mem_cons_of_mem pr hq, hqv⟩
          · intro n hn0 hr0
            by_cases hn : n = tool_published_name spec
            · have hcol : collidesWith n pr = true := by
                rw [collidesWith_iff, hpub, hn]
              rw [List.filter_cons_of_pos hcol]
              have h6 := ih6 n pr.1 (by rw [hn]; exact hS1lk)
              refine ⟨h6.1, ?_, ?_⟩
              · rw [h6.2.1, hev, dupEventsFor_append, hdupmev n]
                simp
              · rw [h6.2.2, hreg, regCount_append, hr0, hmo]
                simp [hn]
            · have hcol : ¬ collidesWith n pr = true := by
                rw [collidesWith_iff, hpub]
                simp
                exact fun hx => hn hx.symm
              rw [List.filter_cons_of_neg (by simpa using hcol)]
              have h5 := ih5 n (by rw [hS1lk_ne n hn]; exact hn0)
                (by rw [hreg, regCount_append, hr0,
                      if_neg (fun hx => hn hx.symm)])
              rcases hfil : rest.filter (collidesWith n) with _ | ⟨c0, ctail⟩ <;>
                rw [hfil] at h5
              · refine ⟨h5.1, ?_, h5.2.2⟩
                rw [h5.2.1, hev, dupEventsFor_append, hdupmev n]
                simp
              · refine ⟨h5.1, ?_, h5.2.2⟩
                rw [h5.2.1, hev, dupEventsFor_append, hdupmev n]
                simp
          · intro n p0 hnp
            have hn : n ≠ tool_published_name spec := by
              intro hx
              rw [hx, hlk] at hnp
              exact absurd hnp (by simp)
            have hcol : ¬ collidesWith n pr = true := by
              rw [collidesWith_iff, hpub]
              simp
              exact fun hx => hn hx.symm
            rw [List.filter_cons_of_neg (by simpa using hcol)]
            have h6 := ih6 n p0 (by rw [hS1lk_ne n hn]; exact hnp)
            refine ⟨h6.1, ?_, ?_⟩
            · rw [h6.2.1, hev, dupEventsFor_append, hdupmev n]
              simp
            · rw [h6.2.2, hreg, regCount_append,
                if_neg (fun hx => hn hx.symm)]
              omega
      · -- published name already claimed: duplicate diagnostic
        have hstep2 := register_step_claimed fs S pr spec p0 hvs hlk
        rw [hstep] at hstep2
        have hS1 : S1 = { S with events := S.events ++
            [.dupPublished (tool_published_name spec) pr.1 p0] } :=
          Except.ok.inj hstep2
        have hpub : validatedPub pr = some (tool_published_name spec) :=
          validatedPub_of_valid pr spec hvs
        have hinv1 : ∀ k2, (S1.registry.lookup k2).isSome = true →
            (S1.pubMap.lookup k2).isSome = true := by
          intro k2 hk2
          rw [hS1] at hk2 ⊢
          exact hinv k2 hk2
        obtain ⟨ih1, ih2, ih3, ih4, ih5, ih6⟩ := ih S1 hgood1 hinv1 hfold
        refine ⟨ih1, ?_, ?_, ?_, ?_, ?_⟩
        · intro hpar
          exact ih2 (by rw [hS1]; exact hpar)
        · intro nm p
          rw [ih3 nm p, hS1]
          simp only [List.mem_append]
          constructor
          · rintro (hx | hx)
            · exact hx
            · simp at hx
          · exact fun hx => Or.inl hx
        · intro k2 hk2
          rcases ih4 k2 hk2 with hx | ⟨q, hq, hqv⟩
          · rw [hS1] at hx
            exact Or.inl hx
          · exact Or.inr ⟨q, List.mem_cons_of_mem pr hq, hqv⟩
        · intro n hn0 hr0
          have hn : n ≠ tool_published_name spec := by
            intro hx
            rw [hx, hlk] at hn0
            simp at hn0
          have hcol : ¬ collidesWith n pr = true := by
            rw [collidesWith_iff, hpub]
            simp
            exact fun hx => hn hx.symm
          rw [List.filter_cons_of_neg (by simpa using hcol)]
          have h5 := ih5 n (by rw [hS1]; exact hn0) (by rw [hS1]; exact hr0)
          rcases hfil : rest.filter (collidesWith n) with _ | ⟨c0, ctail⟩ <;>
            rw [hfil] at h5
          · refine ⟨h5.1, ?_, h5.2.2⟩
            rw [h5.2.1, hS1]
            simp only
            rw [dupEventsFor_append, dupEventsFor_dup_other n _ _ _ (Ne.symm hn)]
            simp
          · refine ⟨h5.1, ?_, h5.2.2⟩
            rw [h5.2.1, hS1]
            simp only
            rw [dupEventsFor_append, dupEventsFor_dup_other n _ _ _ (Ne.symm hn)]
            simp
        · intro n p0b hnp
          by_cases hn : n = tool_published_name spec
          · have hp0 : p0b = p0 := by
              rw [← hn] at hlk
              rw [hnp] at hlk
              exact Option.some.inj hlk
            have hcol : collidesWith n pr = true := by
              rw [collidesWith_iff, hpub, hn]
            rw [List.filter_cons_of_pos hcol]
            have h6 := ih6 n p0b (by rw [hS1]; exact hnp)
            refine ⟨h6.1, ?_, by rw [h6.2.2, hS1]⟩
            rw [h6.2.1, hS1]
            simp only
            rw [hp0, hn, dupEventsFor_append, dupEventsFor_dup_self]
            simp [hn, hp0]
          · have hcol : ¬ collidesWith n pr = true := by
              rw [collidesWith_iff, hpub]
              simp
              exact fun hx => hn hx.symm
            rw [List.filter_cons_of_neg (by simpa using hcol)]
            have h6 := ih6 n p0b (by rw [hS1]; exact hnp)
            refine ⟨h6.1, ?_, by rw [h6.2.2, hS1]⟩
            rw [h6.2.1, hS1]
            simp only
            rw [dupEventsFor_append, dupEventsFor_dup_other n _ _ _ (Ne.symm hn)]
            simp
    · -- the pair is invalid: one non-duplicate diagnostic, nothing else
      obtain ⟨ev, hsev, hdup0, hndm⟩ := register_step_invalid fs S pr e hve
      rw [hstep] at hsev
      have hS1 : S1 = { S with events := S.events ++ [ev] } := Except.ok.inj hsev
      have hpub : validatedPub pr = none := validatedPub_of_invalid pr e hve
      have hinv1 : ∀ k2, (S1.registry.lookup k2).isSome = true →
          (S1.pubMap.lookup k2).isSome = true := by
        intro k2 hk2
        rw [hS1] at hk2 ⊢
        exact hinv k2 hk2
      obtain ⟨ih1, ih2, ih3, ih4, ih5, ih6⟩ := ih S1 hgood1 hinv1 hfold
      have hcolf : ∀ n, ¬ collidesWith n pr = true := by
        intro n
        rw [collidesWith_iff, hpub]
        simp
      refine ⟨ih1, ?_, ?_, ?_, ?_, ?_⟩
      · intro hpar
        exact ih2 (by rw [hS1]; exact hpar)
      · intro nm p
        rw [ih3 nm p, hS1]
        simp only [List.mem_append]
        constructor
        · rintro (hx | hx)
          · exact hx
          · simp at hx
            exact absurd hx.symm (hndm nm p)
        · exact fun hx => Or.inl hx
      · intro k2 hk2
        rcases ih4 k2 hk2 with hx | ⟨q, hq, hqv⟩
        · rw [hS1] at hx
          exact Or.inl hx
        · exact Or.inr ⟨q, List.mem_cons_of_mem pr hq, hqv⟩
      · intro n hn0 hr0
        rw [List.filter_cons_of_neg (by simpa using hcolf n)]
        have h5 := ih5 n (by rw [hS1]; exact hn0) (by rw [hS1]; exact hr0)
        rcases hfil : rest.filter (collidesWith n) with _ | ⟨c0, ctail⟩ <;>
          rw [hfil] at h5
        · refine ⟨h5.1, ?_, h5.2.2⟩
          rw [h5.2.1, hS1]
          simp only
          rw [dupEventsFor_append, hdup0 n]
          simp
        · refine ⟨h5.1, ?_, h5.2.2⟩
          rw [h5.2.1, hS1]
          simp only
          rw [dupEventsFor_append, hdup0 n]
          simp
      · intro n p0 hnp
        rw [List.filter_cons_of_neg (by simpa using hcolf n)]
        have h6 := ih6 n p0 (by rw [hS1]; exact hnp)
        refine ⟨h6.1, ?_, by rw [h6.2.2, hS1]⟩
        rw [h6.2.1, hS1]
        simp only
        rw [dupEventsFor_append, hdup0 n]
        simp

theorem c10_validate_no_mutation_witness :
    ((validate_tool_spec_heap [[("name", .str " x "), ("type", .str "CLI")]] 0).1)[0]? =
      some [("name", .str " x "), ("type", .str "CLI")] := by
  have h := c10_validate_no_mutation [[("name", .str " x "), ("type", .str "CLI")]] 0 0
    (by decide)
  rw [h]
  rfl

/-! ### Discovery-phase events and ordering, feeding the registry pass -/

/-- The event constructors `parse_tool_yaml` can emit. -/
def isParseEvent : LogEvent → Bool
  | .yamlUnavailable _ _ => true
  | .parseFailed _ _ => true
  | .notObject _ => true
  | _ => false

theorem parse_tool_yaml_events (yi : Except String YamlParse) (fs : FileSys)
    (p : String) (s? : Option Dict) (evs : List LogEvent)
    (h : parse_tool_yaml yi fs p = .ok (s?, evs)) :
    ∀ e ∈ evs, isParseEvent e = true := by
  unfold parse_tool_yaml at h
  cases yi with
  | error exc =>
    have hp := Except.ok.inj h
    have hevs : evs = [.yamlUnavailable p exc] := (congrArg Prod.snd hp).symm
    intro e he
    rw [hevs] at he
    simp at he
    rw [he]
    rfl
  | ok yp =>
    cases hr : fs.read p with
    | err msg =>
      simp only [hr] at h
      exact absurd h (by simp)
    | ok t =>
      simp only [hr] at h
      by_cases he : pyStrip t = ""
      · simp only [he, if_true] at h
        have hevs : evs = [] := (congrArg Prod.snd (Except.ok.inj h)).symm
        rw [hevs]
        intro e he2
        simp at he2
      · simp only [he, if_false] at h
        cases hy : yp t with
        | error e2 =>
          simp only [hy] at h
          have hevs : evs = [.parseFailed p e2] := (congrArg Prod.snd (Except.ok.inj h)).symm
          intro e he2
          rw [hevs] at he2
          simp at he2
          rw [he2]
          rfl
        | ok v =>
          simp only [hy] at h
          cases v <;>
            first
            | (have hevs : evs = [] := (congrArg Prod.snd (Except.ok.inj h)).symm
               rw [hevs]
               intro e he2
               simp at he2)
            | (have hevs : evs = [.notObject p] :=
                 (congrArg Prod.snd (Except.ok.inj h)).symm
               intro e he2
               rw [hevs] at he2
               simp at he2
               rw [he2]
               rfl)

theorem iter_specs_go_parse_events (yi : Except String YamlParse) (fs : FileSys)
    (ps : List String) (pairs : List (String × Dict)) (evs : List LogEvent)
    (h : iter_specs_go yi fs ps = .ok (pairs, evs)) :
    ∀ e ∈ evs, isParseEvent e = true := by
  induction ps generalizing pairs evs with
  | nil =>
    have hevs : evs = [] := (congrArg Prod.snd (Except.ok.inj h)).symm
    rw [hevs]
    intro e he
    simp at he
  | cons p rest ih =>
    unfold iter_specs_go at h
    rcases hp : parse_tool_yaml yi fs p with e1 | ⟨s?, evs1⟩
    · simp only [hp, except_bind_err] at h
      exact absurd h (by simp)
    simp only [hp, except_bind_ok] at h
    rcases hr : iter_specs_go yi fs rest with e2 | ⟨pairs2, evs2⟩
    · simp only [hr, except_bind_err] at h
      exact absurd h (by simp)
    simp only [hr, except_bind_ok] at h
    have h1 := parse_tool_yaml_events yi fs p s? evs1 hp
    have h2 := ih pairs2 evs2 hr
    have hevs : evs = evs1 ++ evs2 := by
      cases s? with
      | none => exact (congrArg Prod.snd (Except.ok.inj h)).symm
      | some d =>
        by_cases hd : d.isEmpty
        · simp only [hd, if_true] at h
          exact (congrArg Prod.snd (Except.ok.inj h)).symm
        · simp only [hd, if_false] at h
          exact (congrArg Prod.snd (Except.ok.inj h)).symm
    rw [hevs]
    intro e he
    rcases List.mem_append.mp he with hx | hx
    · exact h1 e hx
    · exact h2 e hx

theorem iter_specs_go_fst_sublist (yi : Except String YamlParse) (fs : FileSys)
    (ps : List String) (pairs : List (String × Dict)) (evs : List LogEvent)
    (h : iter_specs_go yi fs ps = .ok (pairs, evs)) :
    List.Sublist (pairs.map Prod.fst) ps := by
  induction ps generalizing pairs evs with
  | nil =>
    have hps : pairs = [] := (congrArg Prod.fst (Except.ok.inj h)).symm
    rw [hps]
    exact List.nil_sublist _
  | cons p rest ih =>
    unfold iter_specs_go at h
    rcases hp : parse_tool_yaml yi fs p with e1 | ⟨s?, evs1⟩
    · simp only [hp, except_bind_err] at h
      exact absurd h (by simp)
    simp only [hp, except_bind_ok] at h
    rcases hr : iter_specs_go yi fs rest with e2 | ⟨pairs2, evs2⟩
    · simp only [hr, except_bind_err] at h
      exact absurd h (by simp)
    simp only [hr, except_bind_ok] at h
    have hsub := ih pairs2 evs2 hr
    cases s? with
    | none =>
      have hps : pairs = pairs2 := (congrArg Prod.fst (Except.ok.inj h)).symm
      rw [hps]
      exact hsub.cons p
    | some d =>
      by_cases hd : d.isEmpty
      · simp only [hd, if_true] at h
        have hps : pairs = pairs2 := (congrArg Prod.fst (Except.ok.inj h)).symm
        rw [hps]
        exact hsub.cons p
      · simp only [hd, if_false] at h
        have hps : pairs = (p, d) :: pairs2 :=
          (congrArg Prod.fst (Except.ok.inj h)).symm
        rw [hps, List.map_cons]
        exact hsub.cons₂ p

theorem dupEventsFor_of_parse (n : String) (evs : List LogEvent)
    (h : ∀ e ∈ evs, isParseEvent e = true) : dupEventsFor n evs = [] := by
  unfold dupEventsFor
  rw [List.filter_eq_nil_iff]
  intro e he
  have hp := h e he
  cases e <;> simp_all [isParseEvent]

theorem not_dupMounted_of_parse (evs : List LogEvent)
    (h : ∀ e ∈ evs, isParseEvent e = true) :
    ∀ nm p, LogEvent.dupMounted nm p ∉ evs := by
  intro nm p hm
  have hp := h _ hm
  simp [isParseEvent] at hp

/-- The discovered pairs inherit, in order, the strict lexicographic
ordering of the sorted duplicate-free path list. -/
theorem iter_pairs_pairwise (yi : Except String YamlParse) (fs : FileSys)
    (pairs : List (String × Dict)) (evs : List LogEvent)
    (hiter : iter_tool_specs yi fs false = .ok (pairs, evs)) :
    pairs.Pairwise (fun a b => pathLe a.1 b.1 ∧ a.1 ≠ b.1) := by
  have hsub : List.Sublist (pairs.map Prod.fst) (iter_tool_spec_paths fs false) :=
    iter_specs_go_fst_sublist yi fs (iter_tool_spec_paths fs false) pairs evs hiter
  have hs : (iter_tool_spec_paths fs false).Pairwise pathLe :=
    iter_tool_spec_paths_sorted fs false
  have hn : (iter_tool_spec_paths fs false).Pairwise (fun a b => a ≠ b) :=
    iter_tool_spec_paths_nodup fs false
  have hpw : (iter_tool_spec_paths fs false).Pairwise
      (fun a b => pathLe a b ∧ a ≠ b) := hs.and hn
  exact List.pairwise_map.mp (hpw.sublist hsub)

theorem allSpecsGood_spec (pairs : List (String × Dict))
    (h : allSpecsGood pairs = true) :
    ∀ pr ∈ pairs, ∀ spec, validate_tool_spec pr.2 = (some spec, none) →
      goodSpecB spec = true := by
  intro pr hpr spec hv
  have hx := List.all_eq_true.mp h pr hpr
  simpa [hv] using hx

/-- A mounted tool's runtime name is the published name of its validated
descriptor, provided the descriptor is well-behaved (`goodSpecB`). -/
theorem mountedOf_name (fs : FileSys) (pr : String × Dict) (spec : Dict)
    (hv : validate_tool_spec pr.2 = (some spec, none))
    (hg : goodSpecB spec = true)
    (m : MountedTool) (hm : mountedOf fs pr = some m) :
    m.name = tool_published_name spec := by
  obtain ⟨hname, hnne, hnstrip, htype, hlks, hmcp⟩ := validate_inversion pr.2 spec hv
  rcases hk2 : TOOL_TYPE_MOUNTS.lookup (normTypeOf pr.2) with _ | k
  · rw [hk2] at hlks
    simp at hlks
  rcases happ : applyMount k fs spec pr.1 with err | ⟨m?, mev⟩
  · unfold mountedOf mountResult at hm
    rw [hv] at hm
    simp only [htype] at hm
    rw [show pyStr (JVal.str (normTypeOf pr.2)) = normTypeOf pr.2 from rfl, hk2] at hm
    simp [happ] at hm
  have hmo := mountedOf_eq fs pr spec hv (normTypeOf pr.2) k htype hk2 m? mev happ
  rw [hm] at hmo
  exact mounted_name_eq_published fs spec pr.1 (trimmedNameOf pr.2) hname hnne hnstrip
    (normTypeOf pr.2) htype hg k hk2 m mev (by rw [happ, ← hmo])

/-! ### C9: runtime/published name agreement over a pass -/

/-- C9 (corrected): for every validated descriptor that is well-behaved
(`goodSpecB`: not a cli descriptor whose truthy `mcp_name` strips to the
empty string), the mounted tool's runtime name equals the published name
computed by `tool_published_name`; consequently, over a whole pass of
well-behaved descriptors starting from an empty catalog, the second
duplicate check (`dupMounted`) never fires, every catalog key is a claimed
published name, catalog keys and host registrations run in parallel, and
every catalog key is the published name of some validated discovered pair.
(Without the well-behavedness caveat the agreement fails: see the
counterexample, where a cli descriptor with `mcp_name = "  "` is published
under its trimmed `name` but mounted and cataloged under `""`, and a
second such descriptor does trigger the `dupMounted` check.) -/
theorem c9_runtime_name_agreement
    (yamlImport : Except String YamlParse) (fs : FileSys)
    (pairs : List (String × Dict)) (evs0 : List LogEvent) (F : RegState)
    (hiter : iter_tool_specs yamlImport fs false = .ok (pairs, evs0))
    (hgood : allSpecsGood pairs = true)
    (hpass : register_discovered_tools yamlImport fs [] = .ok F) :
    (∀ pr ∈ pairs, ∀ spec, validate_tool_spec pr.2 = (some spec, none) →
      ∀ m, mountedOf fs pr = some m → m.name = tool_published_name spec) ∧
    (∀ nm p, LogEvent.dupMounted nm p ∉ F.events) ∧
    (∀ k2, (F.registry.lookup k2).isSome = true →
      (F.pubMap.lookup k2).isSome = true) ∧
    F.registry.map Prod.fst = F.hostRegs.map (fun t => t.1) ∧
    (∀ k2, (F.registry.lookup k2).isSome = true →
      ∃ pr ∈ pairs, validatedPub pr = some k2) := by
  have hg := allSpecsGood_spec pairs hgood
  unfold register_discovered_tools at hpass
  simp only [hiter, except_bind_ok] at hpass
  obtain ⟨f1, f2, f3, f4, f5, f6⟩ :=
    register_fold fs pairs
      { pubMap := [], registry := [], hostRegs := [], events := evs0 } F hg
      (by intro k2 hk; simp [List.lookup] at hk) hpass
  have hpe := iter_specs_go_parse_events yamlImport fs
    (iter_tool_spec_paths fs false) pairs evs0 hiter
  refine ⟨?_, ?_, f1, f2 rfl, ?_⟩
  · intro pr hpr spec hv m hm
    exact mountedOf_name fs pr spec hv (hg pr hpr spec hv) m hm
  · intro nm p hmem
    exact not_dupMounted_of_parse evs0 hpe nm p ((f3 nm p).mp hmem)
  · intro k2 hk
    rcases f4 k2 hk with hx | hex
    · simp [List.lookup] at hx
    · exact hex

/-- Yaml oracle for the C9 counterexample: two cli descriptors whose
truthy `mcp_name` strips to the empty string. -/
def ypC9 : YamlParse := fun s =>
  if s = "ax" then
    .ok (.obj [("name", .str "x"), ("type", .str "cli"),
               ("mcp_name", .str "  "), ("command", .str "e")])
  else
    .ok (.obj [("name", .str "y"), ("type", .str "cli"),
               ("mcp_name", .str "  "), ("command", .str "f")])

/-- Tree for the C9 counterexample. -/
def fsC9 : FileSys :=
  { toolsDirExists := true
    files := ["/t/a/TOOL.yaml", "/t/b/TOOL.yaml"]
    read := fun p => if p = "/t/a/TOOL.yaml" then .ok "ax" else .ok "bx"
    fileExists := fun _ => false }

/-- The raw first descriptor of the C9 counterexample. -/
def rawC9 : Dict :=
  [("name", .str "x"), ("type", .str "cli"),
   ("mcp_name", .str "  "), ("command", .str "e")]

/-- The final state of the C9 counterexample pass. -/
def FC9 : RegState :=
  (register_discovered_tools (.ok ypC9) fsC9 []).toOption.getD ⟨[], [], [], []⟩

/-- C9 counterexample: a cli descriptor with `mcp_name = "  "` is published
under `"x"` but its mounted runtime name is `""`, so a catalog key differs
from the published name, the catalog misses the published name, and a
second such descriptor triggers the second duplicate check (`dupMounted`)
even though its published name `"y"` was fresh. -/
theorem c9_counterexample :
    register_discovered_tools (.ok ypC9) fsC9 [] = .ok FC9 ∧
    validatedPub ("/t/a/TOOL.yaml", rawC9) = some "x" ∧
    (mountedOf fsC9 ("/t/a/TOOL.yaml", rawC9)).map (fun m => m.name) = some "" ∧
    FC9.pubMap = [("x", "/t/a/TOOL.yaml"), ("y", "/t/b/TOOL.yaml")] ∧
    FC9.registry.map Prod.fst = [""] ∧
    FC9.registry.lookup "x" = none ∧
    FC9.events = [.dupMounted "" "/t/b/TOOL.yaml"] :=
  ⟨rfl, rfl, rfl, rfl, rfl, rfl, rfl⟩

/-- Yaml oracle for the C9 witness: one well-behaved cli descriptor. -/
def ypC9w : YamlParse := fun _ =>
  .ok (.obj [("name", .str "x"), ("type", .str "cli"),
             ("mcp_name", .str "run"), ("command", .str "e")])

/-- Tree for the C9 witness. -/
def fsC9w : FileSys :=
  { toolsDirExists := true
    files := ["/t/TOOL.yaml"]
    read := fun _ => .ok "s"
    fileExists := fun _ => false }

/-- The raw descriptor of the C9 witness. -/
def rawC9w : Dict :=
  [("name", .str "x"), ("type", .str "cli"),
   ("mcp_name", .str "run"), ("command", .str "e")]

/-- The discovered pairs of the C9 witness pass. -/
def pairsC9w : List (String × Dict) := [("/t/TOOL.yaml", rawC9w)]

/-- The final state of the C9 witness pass. -/
def FC9w : RegState :=
  (register_discovered_tools (.ok ypC9w) fsC9w []).toOption.getD ⟨[], [], [], []⟩

theorem c9_runtime_name_agreement_witness :
    (∀ nm p, LogEvent.dupMounted nm p ∉ FC9w.events) ∧
    FC9w.registry.map Prod.fst = FC9w.hostRegs.map (fun t => t.1) ∧
    (∀ k2, (FC9w.registry.lookup k2).isSome = true →
      (FC9w.pubMap.lookup k2).isSome = true) ∧
    (mountedOf fsC9w ("/t/TOOL.yaml", rawC9w)).map (fun m => m.name) = some "run" ∧
    validatedPub ("/t/TOOL.yaml", rawC9w) = some "run" := by
  have h := c9_runtime_name_agreement (.ok ypC9w) fsC9w pairsC9w [] FC9w
    rfl rfl rfl
  exact ⟨h.2.1, h.2.2.2.1, h.2.2.1, rfl, rfl⟩

/-! ### C1: duplicate published names within one pass -/

/-- C1 (corrected): starting from an empty catalog, in a pass whose
validated descriptors are all well-behaved (`allSpecsGood`: no cli
descriptor with a truthy `mcp_name` that strips to the empty string —
such a descriptor would mount under `""` instead of its published name),
when the validated specs that publish name `n` are `c0 :: ctail` in
discovery order, the name is claimed by `c0`, which is strictly
lexicographically first by resolved path; each of the `ctail` specs is
skipped with exactly one duplicate diagnostic naming its own path and
`c0`'s path; and the catalog gains one entry under `n` if `c0`'s adapter
mounts, and zero otherwise — so for N colliding specs the catalog gains
one entry for that name only when the first collider actually mounts
(see the counterexample, where the lexicographically first collider
fails to mount, the name stays claimed, and the catalog gains no entry
at all for it). -/
theorem c1_duplicate_published_names
    (yamlImport : Except String YamlParse) (fs : FileSys)
    (pairs : List (String × Dict)) (evs0 : List LogEvent) (F : RegState)
    (hiter : iter_tool_specs yamlImport fs false = .ok (pairs, evs0))
    (hgood : allSpecsGood pairs = true)
    (hpass : register_discovered_tools yamlImport fs [] = .ok F)
    (n : String) (c0 : String × Dict) (ctail : List (String × Dict))
    (hcs : pairs.filter (collidesWith n) = c0 :: ctail) :
    F.pubMap.lookup n = some c0.1 ∧
    (∀ q ∈ ctail, pathLe c0.1 q.1 ∧ c0.1 ≠ q.1) ∧
    dupEventsFor n F.events =
      ctail.map (fun pr => LogEvent.dupPublished n pr.1 c0.1) ∧
    regCount n F.registry = (if (mountedOf fs c0).isSome then 1 else 0) := by
  have hg := allSpecsGood_spec pairs hgood
  unfold register_discovered_tools at hpass
  simp only [hiter, except_bind_ok] at hpass
  obtain ⟨f1, f2, f3, f4, f5, f6⟩ :=
    register_fold fs pairs
      { pubMap := [], registry := [], hostRegs := [], events := evs0 } F hg
      (by intro k2 hk; simp [List.lookup] at hk) hpass
  have h5 := f5 n rfl rfl
  rw [hcs] at h5
  have hz : dupEventsFor n evs0 = [] :=
    dupEventsFor_of_parse n evs0 (iter_specs_go_parse_events yamlImport fs
      (iter_tool_spec_paths fs false) pairs evs0 hiter)
  refine ⟨h5.1, ?_, ?_, h5.2.2⟩
  · have hpw := iter_pairs_pairwise yamlImport fs pairs evs0 hiter
    have hfilt := hpw.filter (collidesWith n)
    rw [hcs] at hfilt
    exact (List.pairwise_cons.mp hfilt).1
  · rw [h5.2.1]
    show dupEventsFor n evs0 ++ _ = _
    rw [hz]
    simp

/-- Yaml oracle for the C1 scenarios: a cli descriptor with no command and
a prompt descriptor, both publishing the name `dup`. -/
def ypC1 : YamlParse := fun s =>
  if s = "cliDup" then
    .ok (.obj [("name", .str "dup"), ("type", .str "cli")])
  else
    .ok (.obj [("name", .str "dup"), ("type", .str "prompt"),
               ("source", .str "hi")])

/-- Tree for the C1 counterexample: the lexicographically first collider is
the cli descriptor whose mount fails. -/
def fsC1 : FileSys :=
  { toolsDirExists := true
    files := ["/t/a/TOOL.yaml", "/t/b/TOOL.yaml"]
    read := fun p => if p = "/t/a/TOOL.yaml" then .ok "cliDup" else .ok "promptDup"
    fileExists := fun _ => false }

/-- The discovered pairs of the C1 counterexample pass. -/
def pairsC1 : List (String × Dict) :=
  [("/t/a/TOOL.yaml", [("name", .str "dup"), ("type", .str "cli")]),
   ("/t/b/TOOL.yaml", [("name", .str "dup"), ("type", .str "prompt"),
                       ("source", .str "hi")])]

/-- The final state of the C1 counterexample pass. -/
def FC1 : RegState :=
  (register_discovered_tools (.ok ypC1) fsC1 []).toOption.getD ⟨[], [], [], []⟩

/-- C1 counterexample: two validated specs publish `dup`, yet none is
mounted — the lexicographically first collider claims the name but its
adapter declines (missing cli command), the second is still skipped with a
duplicate diagnostic, and the catalog stays empty, contradicting
`exactly one of them is mounted` and the claimed catalog count. -/
theorem c1_counterexample :
    register_discovered_tools (.ok ypC1) fsC1 [] = .ok FC1 ∧
    iter_tool_specs (.ok ypC1) fsC1 false = .ok (pairsC1, []) ∧
    (pairsC1.filter (collidesWith "dup")).length = 2 ∧
    regCount "dup" FC1.registry = 0 ∧
    FC1.registry = [] ∧
    dupEventsFor "dup" FC1.events =
      [.dupPublished "dup" "/t/b/TOOL.yaml" "/t/a/TOOL.yaml"] :=
  ⟨rfl, rfl, rfl, rfl, rfl, rfl⟩

/-- Tree for the C1 witness: both colliders are prompt descriptors, so the
lexicographically first one mounts. -/
def fsC1w : FileSys :=
  { toolsDirExists := true
    files := ["/t/wa/TOOL.yaml", "/t/wb/TOOL.yaml"]
    read := fun _ => .ok "promptDup"
    fileExists := fun _ => false }

/-- The shared prompt descriptor of the C1 witness. -/
def specC1w : Dict :=
  [("name", .str "dup"), ("type", .str "prompt"), ("source", .str "hi")]

/-- The discovered pairs of the C1 witness pass. -/
def pairsC1w : List (String × Dict) :=
  [("/t/wa/TOOL.yaml", specC1w), ("/t/wb/TOOL.yaml", specC1w)]

/-- The final state of the C1 witness pass. -/
def FC1w : RegState :=
  (register_discovered_tools (.ok ypC1) fsC1w []).toOption.getD ⟨[], [], [], []⟩

theorem c1_duplicate_published_names_witness :
    FC1w.pubMap.lookup "dup" = some "/t/wa/TOOL.yaml" ∧
    (pathLe "/t/wa/TOOL.yaml" "/t/wb/TOOL.yaml" ∧
      "/t/wa/TOOL.yaml" ≠ "/t/wb/TOOL.yaml") ∧
    dupEventsFor "dup" FC1w.events =
      [.dupPublished "dup" "/t/wb/TOOL.yaml" "/t/wa/TOOL.yaml"] ∧
    regCount "dup" FC1w.registry = 1 := by
  have h := c1_duplicate_published_names (.ok ypC1) fsC1w pairsC1w [] FC1w
    rfl rfl rfl "dup" ("/t/wa/TOOL.yaml", specC1w) [("/t/wb/TOOL.yaml", specC1w)] rfl
  refine ⟨h.1, ?_, ?_, ?_⟩
  · exact h.2.1 ("/t/wb/TOOL.yaml", specC1w) (List.mem_singleton.mpr rfl)
  · exact h.2.2.1
  · exact h.2.2.2.trans rfl

end Clai
